import Mathlib

/-!
Verification development for the WhoIsLying game server
(`server/roomManager.js`, `server/server.js`, `server/timerManager.js`).

The room record, its phase machine and the per-room operations are embedded
shallowly: a JavaScript `Map` or plain object becomes an association list that
preserves insertion order (JS objects and Maps iterate in insertion order, and
assignment to an existing key keeps its position), `undefined` becomes
`Option.none`, and every operation returns its JS result object together with
the updated room.  Randomness (topic and word selection, imposter selection,
Fisher-Yates shuffling) is passed in as explicit parameters.
-/

-- =============================================================================
-- Data model (roomManager.js in-memory store)
-- =============================================================================

/-- The phase field of a room: `lobby`, `roleReveal`, `description`, `voting`,
`results`, `postGame`. -/
inductive Phase where
  | lobby
  | roleReveal
  | description
  | voting
  | results
  | postGame
deriving DecidableEq, Repr

/-- A player record `{ id, name, socketId }`. -/
structure Player where
  id : String
  name : String
  socketId : String
deriving DecidableEq, Repr

/-- Host-configurable timer settings (`DEFAULT_SETTINGS` shape). -/
structure Settings where
  descriptionTime : Int
  votingTime : Int
deriving DecidableEq, Repr

/-- `DEFAULT_SETTINGS` from roomManager.js. -/
def DEFAULT_SETTINGS : Settings := { descriptionTime := 10, votingTime := 60 }

/-- A room record.  The players `Map` becomes an insertion-ordered list; the
phase-scoped JS fields that may be `undefined` before their phase are given
the default values the transition functions assign. -/
structure Room where
  code : String
  hostId : String
  phase : Phase
  players : List Player
  gameNumber : Nat
  settings : Settings
  topic : Option String := none
  word : Option String := none
  imposterId : Option String := none
  descriptions : List (String × String) := []
  speakingOrder : List String := []
  currentSpeakerIndex : Nat := 0
  pendingVotes : List (String × String) := []
  confirmedVotes : List (String × String) := []
  votes : List (String × String) := []
deriving DecidableEq, Repr

/-- Error codes returned by roomManager.js operations. -/
inductive GameError where
  | ROOM_NOT_FOUND
  | INVALID_PHASE
  | NOT_HOST
  | GAME_ALREADY_STARTED
  | NOT_ENOUGH_PLAYERS
  | PLAYER_NOT_IN_ROOM
  | NOT_YOUR_TURN
  | ALREADY_SUBMITTED
  | VOTER_NOT_IN_ROOM
  | TARGET_NOT_IN_ROOM
  | CANNOT_VOTE_SELF
  | ALREADY_CONFIRMED
  | NO_SELECTION
  | ALREADY_VOTED
  | NO_CURRENT_SPEAKER
  | INVALID_VALUE
  | NO_IMPOSTER
  | EMPTY_DESCRIPTION
deriving DecidableEq, Repr

/-- The JS-style result of an operation: the returned value (or error code)
paired with the room after the call.  A failed operation hands back the room
it was given unless the source mutated it before failing. -/
structure OpResult (α : Type) where
  result : Except GameError α
  room : Room

instance [DecidableEq ε] [DecidableEq α] : DecidableEq (Except ε α) := fun a b =>
  match a, b with
  | .ok a, .ok b => decidable_of_iff (a = b) (by simp)
  | .ok _, .error _ => .isFalse (fun h => by cases h)
  | .error _, .ok _ => .isFalse (fun h => by cases h)
  | .error e, .error f => decidable_of_iff (e = f) (by simp)

instance [DecidableEq α] : DecidableEq (OpResult α) := fun a b =>
  match a, b with
  | ⟨r1, m1⟩, ⟨r2, m2⟩ => decidable_of_iff (r1 = r2 ∧ m1 = m2) (by simp)

-- =============================================================================
-- Association-list helpers for JS objects / Maps keyed by player id
-- =============================================================================

/-- `obj[k]` read on a JS object modelled as an insertion-ordered list. -/
def lookupKV (m : List (String × α)) (k : String) : Option α :=
  (m.find? (fun p => p.1 == k)).map (fun p => p.2)

/-- `obj[k] = v` on a JS object: overwrite the entry for `k` in place if one
exists, otherwise append (JS objects hold at most one entry per key and keep
insertion order). -/
def setKV : List (String × α) → String → α → List (String × α)
  | [], k, v => [(k, v)]
  | p :: m, k, v => if p.1 = k then (k, v) :: m else p :: setKV m k v

/-- `room.players.get(pid)` on the players Map. -/
def getPlayer (r : Room) (pid : String) : Option Player :=
  r.players.find? (fun p => p.id == pid)

/-- `room.players.has(pid)` on the players Map. -/
def hasPlayer (r : Room) (pid : String) : Bool :=
  (getPlayer r pid).isSome

-- =============================================================================
-- Voting engine (roomManager.js selectVote / confirmVote /
-- autoConfirmPendingVotes / submitVote)
-- =============================================================================

/-- `selectVote(roomCode, voterId, targetPlayerId)`: records a pending
selection after validating phase, membership, self-vote and prior
confirmation.  The registry lookup by room code is performed by the caller;
the embedding operates on the room record itself. -/
def selectVote (r : Room) (voterId targetPlayerId : String) : OpResult Unit :=
  if r.phase ≠ Phase.voting then ⟨.error .INVALID_PHASE, r⟩
  else if ¬ hasPlayer r voterId then ⟨.error .VOTER_NOT_IN_ROOM, r⟩
  else if ¬ hasPlayer r targetPlayerId then ⟨.error .TARGET_NOT_IN_ROOM, r⟩
  else if voterId = targetPlayerId then ⟨.error .CANNOT_VOTE_SELF, r⟩
  else if (lookupKV r.confirmedVotes voterId).isSome then ⟨.error .ALREADY_CONFIRMED, r⟩
  else ⟨.ok (), { r with pendingVotes := setKV r.pendingVotes voterId targetPlayerId }⟩

/-- The success payload of `confirmVote`. -/
structure ConfirmInfo where
  allConfirmed : Bool
  confirmedCount : Nat
  totalPlayers : Nat
deriving DecidableEq, Repr

/-- `confirmVote(roomCode, voterId)`: copies the pending selection into the
confirmed map and mirrors it into the legacy `votes` map. -/
def confirmVote (r : Room) (voterId : String) : OpResult ConfirmInfo :=
  if r.phase ≠ Phase.voting then ⟨.error .INVALID_PHASE, r⟩
  else if ¬ hasPlayer r voterId then ⟨.error .VOTER_NOT_IN_ROOM, r⟩
  else
    match lookupKV r.pendingVotes voterId with
    | none => ⟨.error .NO_SELECTION, r⟩
    | some targetPlayerId =>
      if (lookupKV r.confirmedVotes voterId).isSome then ⟨.error .ALREADY_CONFIRMED, r⟩
      else
        let confirmedVotes := setKV r.confirmedVotes voterId targetPlayerId
        let votes := setKV r.votes voterId targetPlayerId
        let confirmedCount := confirmedVotes.length
        let totalPlayers := r.players.length
        ⟨.ok { allConfirmed := confirmedCount = totalPlayers,
               confirmedCount := confirmedCount, totalPlayers := totalPlayers },
         { r with confirmedVotes := confirmedVotes, votes := votes }⟩

/-- One iteration of the `autoConfirmPendingVotes` loop body over a pending
entry: confirm it unless that voter already confirmed. -/
def autoConfirmStep (acc : Room × Nat) (p : String × String) : Room × Nat :=
  if (lookupKV acc.1.confirmedVotes p.1).isSome then acc
  else ({ acc.1 with confirmedVotes := setKV acc.1.confirmedVotes p.1 p.2,
                     votes := setKV acc.1.votes p.1 p.2 }, acc.2 + 1)

/-- `autoConfirmPendingVotes(roomCode)`: bulk-promotes all still-pending
selections into the confirmed map when the voting timer expires; returns the
number auto-confirmed. -/
def autoConfirmPendingVotes (r : Room) : OpResult Nat :=
  if r.phase ≠ Phase.voting then ⟨.error .INVALID_PHASE, r⟩
  else
    let s := r.pendingVotes.foldl autoConfirmStep (r, 0)
    ⟨.ok s.2, s.1⟩

/-- The success payload of the legacy `submitVote`. -/
structure SubmitVoteInfo where
  allVoted : Bool
  votedCount : Nat
  totalPlayers : Nat
deriving DecidableEq, Repr

/-- `submitVote(roomCode, voterId, targetPlayerId)`: the deprecated one-step
voting path.  It validates against the legacy `votes` map and writes only to
it, never touching `pendingVotes` or `confirmedVotes`. -/
def submitVote (r : Room) (voterId targetPlayerId : String) : OpResult SubmitVoteInfo :=
  if r.phase ≠ Phase.voting then ⟨.error .INVALID_PHASE, r⟩
  else if ¬ hasPlayer r voterId then ⟨.error .VOTER_NOT_IN_ROOM, r⟩
  else if ¬ hasPlayer r targetPlayerId then ⟨.error .TARGET_NOT_IN_ROOM, r⟩
  else if voterId = targetPlayerId then ⟨.error .CANNOT_VOTE_SELF, r⟩
  else if (lookupKV r.votes voterId).isSome then ⟨.error .ALREADY_VOTED, r⟩
  else
    let votes := setKV r.votes voterId targetPlayerId
    ⟨.ok { allVoted := votes.length = r.players.length,
           votedCount := votes.length, totalPlayers := r.players.length },
     { r with votes := votes }⟩

/-- `transitionToVotingPhase(roomCode)`: resets the three vote maps and moves
the room from `description` to `voting` (the chat log is out of scope of the
embedded state). -/
def transitionToVotingPhase (r : Room) : OpResult Unit :=
  if r.phase ≠ Phase.description then ⟨.error .INVALID_PHASE, r⟩
  else ⟨.ok (), { r with phase := Phase.voting,
                         votes := [], pendingVotes := [], confirmedVotes := [] }⟩

-- =============================================================================
-- Turn engine and description phase (roomManager.js)
-- =============================================================================

/-- One Fisher-Yates swap `[a[i], a[j]] = [a[j], a[i]]`, a no-op when an index
is out of range (in the source both are always in range). -/
def swapList (l : List α) (i j : Nat) : List α :=
  match l.get? i, l.get? j with
  | some a, some b => (l.set i b).set j a
  | _, _ => l

/-- The `shuffleArray` loop, counting `i` down from `length - 1` to `1`; each
random draw `Math.floor(Math.random() * (i + 1))` is supplied by the head of
`rand`, reduced mod `i + 1` to land in the same range `[0, i]`. -/
def fisherYatesAux (rand : List Nat) (i : Nat) (l : List α) : List α :=
  match i with
  | 0 => l
  | Nat.succ i' =>
    let j := (rand.headD 0) % (i + 1)
    fisherYatesAux rand.tail i' (swapList l i j)

/-- `shuffleArray(array)` with the random draws made explicit. -/
def shuffleArray (rand : List Nat) (l : List α) : List α :=
  match l.length with
  | 0 => l
  | Nat.succ n => fisherYatesAux rand n l

/-- `transitionToDescriptionPhase(roomCode)`: moves `roleReveal → description`,
clears the descriptions map, draws a random speaking order over the current
player ids and resets the speaker index to 0. -/
def transitionToDescriptionPhase (r : Room) (rand : List Nat) : OpResult Unit :=
  if r.phase ≠ Phase.roleReveal then ⟨.error .INVALID_PHASE, r⟩
  else
    ⟨.ok (), { r with phase := Phase.description,
                      descriptions := [],
                      speakingOrder := shuffleArray rand (r.players.map Player.id),
                      currentSpeakerIndex := 0 }⟩

/-- JavaScript `String.prototype.trim()`: strip leading and trailing
whitespace.  Implemented structurally on the character list so that concrete
evaluations reduce in the kernel. -/
def jsTrim (s : String) : String :=
  ⟨((s.data.dropWhile Char.isWhitespace).reverse.dropWhile Char.isWhitespace).reverse⟩

/-- The success payload of `submitDescription`. -/
structure SubmitInfo where
  allSubmitted : Bool
  submittedCount : Nat
  totalPlayers : Nat
  submittedById : String
  storedDescription : String
deriving DecidableEq, Repr

/-- `submitDescription(roomCode, playerId, description)`: only the player at
the current speaker index may submit; empty or whitespace-only text is
normalized to the placeholder instead of being rejected; the speaker index
advances by one on success.  `playerId !== speakingOrder[idx]` is an
always-true mismatch when the index is out of range (`undefined` on the
right). -/
def submitDescription (r : Room) (playerId description : String) : OpResult SubmitInfo :=
  if r.phase ≠ Phase.description then ⟨.error .INVALID_PHASE, r⟩
  else if ¬ hasPlayer r playerId then ⟨.error .PLAYER_NOT_IN_ROOM, r⟩
  else if r.speakingOrder.get? r.currentSpeakerIndex ≠ some playerId then
    ⟨.error .NOT_YOUR_TURN, r⟩
  else if (lookupKV r.descriptions playerId).isSome then ⟨.error .ALREADY_SUBMITTED, r⟩
  else
    let trimmed := jsTrim description
    let finalDescription := if trimmed.length = 0 then "(No response)" else trimmed
    let descriptions := setKV r.descriptions playerId finalDescription
    ⟨.ok { allSubmitted := descriptions.length = r.players.length,
           submittedCount := descriptions.length,
           totalPlayers := r.players.length,
           submittedById := playerId,
           storedDescription := finalDescription },
     { r with descriptions := descriptions,
              currentSpeakerIndex := r.currentSpeakerIndex + 1 }⟩

/-- The skip-disconnected `while` loop shared by `getCurrentSpeaker` and the
disconnected branch of `autoSubmitCurrentSpeaker`: while the entry at the
speaker index names a player who has left, auto-fill the disconnect
placeholder and advance; the fuel argument models the `skipCount < maxSkips`
bound (`maxSkips = speakingOrder.length`). -/
def skipLoop : Nat → Room → Room
  | 0, r => r
  | Nat.succ fuel, r =>
    match r.speakingOrder.get? r.currentSpeakerIndex with
    | none => r
    | some speakerId =>
      if hasPlayer r speakerId then r
      else
        let descriptions :=
          if (lookupKV r.descriptions speakerId).isSome then r.descriptions
          else setKV r.descriptions speakerId "(Disconnected)"
        skipLoop fuel { r with descriptions := descriptions,
                               currentSpeakerIndex := r.currentSpeakerIndex + 1 }

/-- The success payload of `getCurrentSpeaker`: `allComplete` plus the current
speaker as `(id, name, index)` when there is one. -/
structure SpeakerInfo where
  allComplete : Bool
  currentSpeaker : Option (String × String × Nat)
deriving DecidableEq, Repr

/-- `getCurrentSpeaker(roomCode)`: skips disconnected entries (mutating the
room), then reports either completion or the current speaker. -/
def getCurrentSpeaker (r : Room) : OpResult SpeakerInfo :=
  if r.phase ≠ Phase.description then ⟨.error .INVALID_PHASE, r⟩
  else
    let r1 := skipLoop r.speakingOrder.length r
    if r1.currentSpeakerIndex ≥ r1.speakingOrder.length then
      ⟨.ok { allComplete := true, currentSpeaker := none }, r1⟩
    else
      match r1.speakingOrder.get? r1.currentSpeakerIndex with
      | none => ⟨.ok { allComplete := true, currentSpeaker := none }, r1⟩
      | some currentSpeakerId =>
        match getPlayer r1 currentSpeakerId with
        | none => ⟨.ok { allComplete := true, currentSpeaker := none }, r1⟩
        | some p =>
          ⟨.ok { allComplete := false,
                 currentSpeaker := some (currentSpeakerId, p.name, r1.currentSpeakerIndex) },
           r1⟩

/-- The success payload of `autoSubmitCurrentSpeaker`. -/
structure AutoSubmitInfo where
  allSubmitted : Bool
  submittedCount : Nat
  totalPlayers : Nat
  nextSpeaker : Option (String × Nat)
  skippedDisconnected : Bool
deriving DecidableEq, Repr

/-- `autoSubmitCurrentSpeaker(roomCode)`: on turn timeout, fill the
placeholder for the current speaker (or skip a disconnected one) and advance
the speaker index. -/
def autoSubmitCurrentSpeaker (r : Room) : OpResult AutoSubmitInfo :=
  if r.phase ≠ Phase.description then ⟨.error .INVALID_PHASE, r⟩
  else
    match r.speakingOrder.get? r.currentSpeakerIndex with
    | none => ⟨.error .NO_CURRENT_SPEAKER, r⟩
    | some currentSpeakerId =>
      if ¬ hasPlayer r currentSpeakerId then
        -- Disconnected speaker: advance past it, then run the skip loop.
        let r1 := { r with currentSpeakerIndex := r.currentSpeakerIndex + 1 }
        let r2 := skipLoop r1.speakingOrder.length r1
        let allSubmitted := r2.currentSpeakerIndex ≥ r2.speakingOrder.length
        let nextSpeaker :=
          if allSubmitted then none
          else match r2.speakingOrder.get? r2.currentSpeakerIndex with
            | none => none
            | some nextId =>
              if hasPlayer r2 nextId then some (nextId, r2.currentSpeakerIndex) else none
        ⟨.ok { allSubmitted := allSubmitted,
               submittedCount := r2.descriptions.length,
               totalPlayers := r2.players.length,
               nextSpeaker := nextSpeaker,
               skippedDisconnected := true }, r2⟩
      else
        let descriptions :=
          if (lookupKV r.descriptions currentSpeakerId).isSome then r.descriptions
          else setKV r.descriptions currentSpeakerId "(No response)"
        let r1 := { r with descriptions := descriptions,
                           currentSpeakerIndex := r.currentSpeakerIndex + 1 }
        let allSubmitted := r1.currentSpeakerIndex ≥ r1.speakingOrder.length
        let nextSpeaker :=
          if allSubmitted then none
          else (r1.speakingOrder.get? r1.currentSpeakerIndex).map
            (fun nextId => (nextId, r1.currentSpeakerIndex))
        ⟨.ok { allSubmitted := allSubmitted,
               submittedCount := r1.descriptions.length,
               totalPlayers := r1.players.length,
               nextSpeaker := nextSpeaker,
               skippedDisconnected := false }, r1⟩

-- =============================================================================
-- Disconnect recovery (roomManager.js handlePlayerDisconnectMidGame)
-- =============================================================================

/-- JavaScript property access `s.id` on a string primitive: the speaking
order stores plain id strings, so reading `.id` on an entry always yields
`undefined`. -/
def stringDotId (_s : String) : Option String := none

/-- The result object of `handlePlayerDisconnectMidGame`. -/
structure DisconnectInfo where
  phase : Phase
  autoSubmitted : Bool
  wasCurrentSpeaker : Bool
  newSpeakerIndex : Option Nat
  descriptionComplete : Option Bool
  votingComplete : Option Bool
deriving DecidableEq, Repr

/-- `handlePlayerDisconnectMidGame(roomCode, playerId)`: called before the
player is removed.  In the description phase it auto-fills the disconnect
placeholder for an unsubmitted player, then checks
`currentSpeaker && currentSpeaker.id === playerId` - where `currentSpeaker`
is the id string at the speaker index, so the `.id` read is `undefined` and
the comparison is evaluated faithfully via `stringDotId`.  In the voting
phase it only reports whether all other players have confirmed. -/
def handlePlayerDisconnectMidGame (r : Room) (playerId : String) : DisconnectInfo × Room :=
  if r.phase = Phase.description then
    match lookupKV r.descriptions playerId with
    | some _ =>
      ({ phase := r.phase,
         autoSubmitted := false,
         wasCurrentSpeaker := false,
         newSpeakerIndex := none,
         descriptionComplete := some (r.descriptions.length ≥ r.players.length),
         votingComplete := none }, r)
    | none =>
      let r1 := { r with descriptions := setKV r.descriptions playerId "(Disconnected)" }
      match r1.speakingOrder.get? r1.currentSpeakerIndex with
      | some currentSpeaker =>
        if stringDotId currentSpeaker = some playerId then
          let r2 := { r1 with currentSpeakerIndex := r1.currentSpeakerIndex + 1 }
          ({ phase := r.phase,
             autoSubmitted := true,
             wasCurrentSpeaker := true,
             newSpeakerIndex := some r2.currentSpeakerIndex,
             descriptionComplete := some (r2.descriptions.length ≥ r2.players.length),
             votingComplete := none }, r2)
        else
          ({ phase := r.phase,
             autoSubmitted := true,
             wasCurrentSpeaker := false,
             newSpeakerIndex := none,
             descriptionComplete := some (r1.descriptions.length ≥ r1.players.length),
             votingComplete := none }, r1)
      | none =>
        ({ phase := r.phase,
           autoSubmitted := true,
           wasCurrentSpeaker := false,
           newSpeakerIndex := none,
           descriptionComplete := some (r1.descriptions.length ≥ r1.players.length),
           votingComplete := none }, r1)
  else if r.phase = Phase.voting then
    let votedCount := r.confirmedVotes.length
    let remainingPlayers := r.players.length - 1
    ({ phase := r.phase,
       autoSubmitted := false,
       wasCurrentSpeaker := false,
       newSpeakerIndex := none,
       descriptionComplete := none,
       votingComplete := some (remainingPlayers > 0 ∧ votedCount ≥ remainingPlayers) }, r)
  else
    ({ phase := r.phase,
       autoSubmitted := false,
       wasCurrentSpeaker := false,
       newSpeakerIndex := none,
       descriptionComplete := none,
       votingComplete := none }, r)

-- =============================================================================
-- Registry and game setup (roomManager.js startGame / updateRoomSettings)
-- =============================================================================

/-- `MIN_PLAYERS` from roomManager.js. -/
def MIN_PLAYERS : Nat := 4

/-- The game data returned by `startGame`. -/
structure GameData where
  topic : String
  word : String
  imposterId : String
deriving DecidableEq, Repr

/-- `selectRandomImposter(players)` with the random index explicit: the draw
`Math.floor(Math.random() * playerIds.length)` is supplied as `k` reduced mod
the player count. -/
def selectRandomImposter (players : List Player) (k : Nat) : Option String :=
  (players.get? (k % players.length)).map Player.id

/-- `startGame(roomCode, requestingPlayerId)` with the random topic, word and
imposter draw made explicit parameters. -/
def startGame (r : Room) (requestingPlayerId : String) (topic word : String) (k : Nat) :
    OpResult GameData :=
  if r.hostId ≠ requestingPlayerId then ⟨.error .NOT_HOST, r⟩
  else if r.phase ≠ Phase.lobby then ⟨.error .GAME_ALREADY_STARTED, r⟩
  else if r.players.length < MIN_PLAYERS then ⟨.error .NOT_ENOUGH_PLAYERS, r⟩
  else
    match selectRandomImposter r.players k with
    | none => ⟨.error .NOT_ENOUGH_PLAYERS, r⟩
    | some imposterId =>
      ⟨.ok { topic := topic, word := word, imposterId := imposterId },
       { r with phase := Phase.roleReveal,
                topic := some topic,
                word := some word,
                imposterId := some imposterId }⟩

/-- A JS number argument for `updateRoomSettings`: absent, `NaN` after
`parseInt`, or an integer value. -/
inductive JsNum where
  | undef
  | nan
  | val (n : Int)
deriving DecidableEq, Repr

/-- The `newSettings` argument of `updateRoomSettings`. -/
structure SettingsInput where
  descriptionTime : JsNum
  votingTime : JsNum
deriving DecidableEq, Repr

/-- `updateRoomSettings(roomCode, playerId, newSettings)`: validates phase and
host, then validates and APPLIES each field in turn - `descriptionTime`
first, `votingTime` second - so a failure on `votingTime` leaves an already
applied `descriptionTime` change in the room. -/
def updateRoomSettings (r : Room) (playerId : String) (s : SettingsInput) :
    OpResult (List String) :=
  if r.phase ≠ Phase.lobby ∧ r.phase ≠ Phase.postGame then ⟨.error .INVALID_PHASE, r⟩
  else if r.hostId ≠ playerId then ⟨.error .NOT_HOST, r⟩
  else
    match s.descriptionTime with
    | .nan => ⟨.error .INVALID_VALUE, r⟩
    | .val n =>
      if n < 5 ∨ n > 60 then ⟨.error .INVALID_VALUE, r⟩
      else
        let r1 := { r with settings := { r.settings with descriptionTime := n } }
        match s.votingTime with
        | .nan => ⟨.error .INVALID_VALUE, r1⟩
        | .val m =>
          if m < 15 ∨ m > 180 then ⟨.error .INVALID_VALUE, r1⟩
          else ⟨.ok ["descriptionTime", "votingTime"],
                { r1 with settings := { r1.settings with votingTime := m } }⟩
        | .undef => ⟨.ok ["descriptionTime"], r1⟩
    | .undef =>
      match s.votingTime with
      | .nan => ⟨.error .INVALID_VALUE, r⟩
      | .val m =>
        if m < 15 ∨ m > 180 then ⟨.error .INVALID_VALUE, r⟩
        else ⟨.ok ["votingTime"],
              { r with settings := { r.settings with votingTime := m } }⟩
      | .undef => ⟨.ok [], r⟩

-- =============================================================================
-- Vote resolution (roomManager.js calculateVoteResults / finalizeResults)
-- =============================================================================

/-- `voteCounts` initialization: every current player starts at 0, in the
iteration order of the players Map. -/
def initCounts (r : Room) : List (String × Nat) :=
  r.players.map (fun p => (p.id, 0))

/-- `voteCounts[targetPlayerId]++` guarded by
`voteCounts[targetPlayerId] !== undefined`. -/
def bumpCount (m : List (String × Nat)) (k : String) : List (String × Nat) :=
  if (m.find? (fun p => p.1 == k)).isSome then
    m.map (fun p => if p.1 == k then (p.1, p.2 + 1) else p)
  else m

/-- The tally: fold the cast votes (the values of `room.votes`) over the
zero-initialized per-player counts. -/
def voteCounts (r : Room) : List (String × Nat) :=
  r.votes.foldl (fun m kv => bumpCount m kv.2) (initCounts r)

/-- The `maxVotes` scan, starting from 0. -/
def maxVotes (counts : List (String × Nat)) : Nat :=
  counts.foldl (fun mx p => if p.2 > mx then p.2 else mx) 0

/-- `playersWithMaxVotes`: the ids whose tally equals the maximum. -/
def playersWithMaxVotes (counts : List (String × Nat)) (mx : Nat) : List String :=
  (counts.filter (fun p => p.2 == mx)).map (fun p => p.1)

/-- One entry of the vote summary: `{ playerId, playerName, votes }`. -/
structure SummaryEntry where
  playerId : String
  playerName : String
  votes : Nat
deriving DecidableEq, Repr

/-- Stable insertion into a descending-by-votes list: the new entry goes
after every entry with at least as many votes, modelling the stable JS
`sort((a, b) => b.votes - a.votes)`. -/
def insertDesc (x : SummaryEntry) : List SummaryEntry → List SummaryEntry
  | [] => [x]
  | y :: ys => if y.votes > x.votes then y :: insertDesc x ys else x :: y :: ys

/-- Stable descending-by-votes sort of the vote summary. -/
def sortDesc : List SummaryEntry → List SummaryEntry
  | [] => []
  | x :: xs => insertDesc x (sortDesc xs)

/-- The results payload built by `finalizeResults`. -/
structure VoteResults where
  votedOutPlayer : String × String
  imposter : String × String
  playersWin : Bool
  voteSummary : List SummaryEntry
  secretWord : Option String
deriving DecidableEq, Repr

/-- `finalizeResults(room, votedOutPlayerId, voteCounts)`: flips the phase to
`results` and builds the payload; `none` models the TypeError the source
would raise reading `.name` when the voted-out player or the imposter is no
longer in the players Map. -/
def finalizeResults (r : Room) (votedOutPlayerId : String) (counts : List (String × Nat)) :
    Option (VoteResults × Room) :=
  let playersWin := r.imposterId = some votedOutPlayerId
  let voteSummary :=
    counts.filterMap (fun p =>
      (getPlayer r p.1).map (fun q => ⟨p.1, q.name, p.2⟩))
  let sorted := sortDesc voteSummary
  let r1 := { r with phase := Phase.results }
  match getPlayer r votedOutPlayerId, r.imposterId.bind (getPlayer r) with
  | some votedOut, some imposter =>
    some ({ votedOutPlayer := (votedOut.id, votedOut.name),
            imposter := (imposter.id, imposter.name),
            playersWin := playersWin,
            voteSummary := sorted,
            secretWord := r.word }, r1)
  | _, _ => none

/-- The outcome of `calculateVoteResults`: a tie signal, a results payload, a
validation error, or the TypeError of `finalizeResults` on a corrupted
room. -/
inductive CalcOutcome where
  | tie
  | results (res : VoteResults)
  | err (e : GameError)
  | typeError
deriving DecidableEq, Repr

/-- `calculateVoteResults(roomCode)`: tally, find the maximum, report a tie
without mutating when several players share it, otherwise finalize. -/
def calculateVoteResults (r : Room) : CalcOutcome × Room :=
  if r.phase ≠ Phase.voting then (.err .INVALID_PHASE, r)
  else
    let counts := voteCounts r
    let mx := maxVotes counts
    let winners := playersWithMaxVotes counts mx
    if winners.length > 1 then (.tie, r)
    else
      match winners.get? 0 with
      | none => (.typeError, r)
      | some votedOutPlayerId =>
        match finalizeResults r votedOutPlayerId counts with
        | some (res, r1) => (.results res, r1)
        | none => (.typeError, r)

-- =============================================================================
-- Serialization and broadcast payloads (roomManager.js serializeRoom,
-- server.js game:start role distribution and handleVotingComplete)
-- =============================================================================

/-- One entry of the serialized player list: id and name only. -/
structure SerializedPlayer where
  id : String
  name : String
deriving DecidableEq, Repr

/-- The output shape of `serializeRoom`: the only fields it ever emits. -/
structure SerializedRoom where
  code : String
  hostId : String
  phase : Phase
  players : List SerializedPlayer
  playerCount : Nat
  gameNumber : Nat
  settings : Settings
  topic : Option String
deriving DecidableEq, Repr

/-- `serializeRoom(room)`: the public projection of a room, never reading
`word` or `imposterId`. -/
def serializeRoom (r : Room) : SerializedRoom :=
  { code := r.code,
    hostId := r.hostId,
    phase := r.phase,
    players := r.players.map (fun p => { id := p.id, name := p.name }),
    playerCount := r.players.length,
    gameNumber := r.gameNumber,
    settings := r.settings,
    topic := r.topic }

/-- The private per-player payload of the `game:roleAssigned` event. -/
structure RolePayload where
  isImposter : Bool
  topic : String
  word : Option String
deriving DecidableEq, Repr

/-- The role-distribution loop of the `game:start` handler: one
`(socketId, payload)` pair per player, each emitted with
`io.to(playerInfo.socketId)` - a single-connection target. -/
def roleMessages (players : List Player) (gd : GameData) : List (String × RolePayload) :=
  players.map (fun p =>
    (p.socketId,
     { isImposter := p.id = gd.imposterId,
       topic := gd.topic,
       word := if p.id = gd.imposterId then none else some gd.word }))

/-- The `game:started` payload broadcast to the whole room after role
distribution: the serialized room plus the topic, nothing else. -/
def gameStartedPayload (r : Room) (gd : GameData) : SerializedRoom × String :=
  (serializeRoom r, gd.topic)

/-- The `game:results` payload broadcast to the whole room by
`handleVotingComplete` when resolution succeeds: it carries the voted-out
player, the imposter (id and name), the win flag, the vote summary and the
secret word. -/
def gameResultsBroadcast (r : Room) : Option (SerializedRoom × VoteResults) :=
  match calculateVoteResults r with
  | (.results res, r1) => some (serializeRoom r1, res)
  | _ => none

-- =============================================================================
-- Timer coordinator (timerManager.js)
-- =============================================================================

/-- The per-room timer record stored in the `roomTimers` map. -/
structure TimerData where
  phase : String
  remainingSeconds : Nat
deriving DecidableEq, Repr

/-- The `roomTimers` map, an insertion-ordered association list keyed by room
code. -/
abbrev TimerMap : Type := List (String × TimerData)

/-- `roomTimers.get(roomCode)` is the same lookup as on any other
insertion-ordered map. -/
def timerLookup (m : TimerMap) (roomCode : String) : Option TimerData :=
  lookupKV m roomCode

/-- `clearTimer(roomCode)`: cancels the interval and deletes the map entry;
a no-op when no timer is stored. -/
def clearTimer (m : TimerMap) (roomCode : String) : TimerMap :=
  m.filter (fun p => p.1 != roomCode)

/-- Modelled from the spec: the V1.2 `startTimer` accepts a caller-supplied
`durationSeconds` (the V1.0 timerManager.js in the repository derives the
duration from `PHASE_DURATIONS[phase]`; its V1.2 callers in server.js, such
as `startSpeakerTurnTimer`, pass a custom duration as a fifth argument, and
that revision of the module is not among the sources).  Registration
semantics: clear any prior timer for the room, do nothing if the duration is
falsy (0), otherwise store the fresh timer record. -/
def startTimer (m : TimerMap) (roomCode phase : String) (d : Nat) : TimerMap :=
  let m1 := clearTimer m roomCode
  if d = 0 then m1 else m1 ++ [(roomCode, { phase := phase, remainingSeconds := d })]

/-- A callback invocation of the countdown: a tick with the remaining seconds
or the expiry notification. -/
inductive TimerEvent where
  | tick (remaining : Nat)
  | expire
deriving DecidableEq, Repr

/-- The `setInterval` body iterated from `remaining` seconds left: decrement,
tick with the decremented remainder, and fire the expiry exactly when it
reaches zero. -/
def intervalTrace : Nat → List TimerEvent
  | 0 => []
  | Nat.succ n =>
    TimerEvent.tick n :: (if n = 0 then [TimerEvent.expire] else intervalTrace n)

/-- The full callback trace of a timer of duration `d` that runs uncancelled:
the immediate tick with the full duration followed by the interval
countdown.  A falsy duration registers nothing and produces no callbacks. -/
def timerTrace (d : Nat) : List TimerEvent :=
  if d = 0 then [] else TimerEvent.tick d :: intervalTrace d

/-- The timer map after a timer of duration `d` for `roomCode` expires: the
source calls `clearTimer` before invoking `onExpire`, so the entry is gone. -/
def timerMapAfterExpiry (m : TimerMap) (roomCode phase : String) (d : Nat) : TimerMap :=
  clearTimer (startTimer m roomCode phase d) roomCode

-- =============================================================================
-- Derived definitions used by the statements
-- =============================================================================

/-- A JS object has at most one entry per key. -/
def KeysNodup (m : List (String × α)) : Prop := (m.map Prod.fst).Nodup

/-- A voting-phase operation, for reasoning about arbitrary interleavings of
the two-step protocol with the timeout bulk confirm. -/
inductive VoteOp where
  | select (voterId targetPlayerId : String)
  | confirm (voterId : String)
  | autoConfirm
deriving DecidableEq, Repr

/-- The room after one voting-phase operation (a failed operation returns the
room unchanged). -/
def applyVoteOp (r : Room) : VoteOp → Room
  | .select v t => (selectVote r v t).room
  | .confirm v => (confirmVote r v).room
  | .autoConfirm => (autoConfirmPendingVotes r).room

/-- The room after a sequence of voting-phase operations. -/
def runVoteOps (r : Room) (ops : List VoteOp) : Room :=
  ops.foldl applyVoteOp r

/-- No entry of a vote map targets its own voter. -/
def NoSelfVotes (m : List (String × String)) : Prop := ∀ p ∈ m, p.1 ≠ p.2

/-- The voting-state invariant: unique keys and no self-votes in both the
pending and the confirmed map. -/
def VoteInv (r : Room) : Prop :=
  KeysNodup r.pendingVotes ∧ KeysNodup r.confirmedVotes ∧
    NoSelfVotes r.pendingVotes ∧ NoSelfVotes r.confirmedVotes

/-- The two-step path `selectVote` then `confirmVote` with the same
arguments, for comparison with the legacy `submitVote`. -/
def selectThenConfirm (r : Room) (voterId targetPlayerId : String) :
    Except GameError ConfirmInfo × Room :=
  match selectVote r voterId targetPlayerId with
  | ⟨.error e, r1⟩ => (.error e, r1)
  | ⟨.ok _, r1⟩ =>
    let c := confirmVote r1 voterId
    (c.result, c.room)

/-- The tally of a player id under the vote counting of
`calculateVoteResults` (zero when the id has no entry). -/
def tallyOf (r : Room) (pid : String) : Nat :=
  (lookupKV (voteCounts r) pid).getD 0

/-- The maximum tally found by the `maxVotes` scan. -/
def maxTally (r : Room) : Nat := maxVotes (voteCounts r)

/-- The argmax set of the resolution: ids holding the maximum tally. -/
def maxHolders (r : Room) : List String :=
  playersWithMaxVotes (voteCounts r) (maxTally r)

-- =============================================================================
-- Concrete fixtures used by witnesses and counterexamples
-- =============================================================================

/-- A concrete four-player roster. -/
def wPlayers : List Player :=
  [{ id := "p1", name := "Alice", socketId := "s1" },
   { id := "p2", name := "Bob", socketId := "s2" },
   { id := "p3", name := "Cara", socketId := "s3" },
   { id := "p4", name := "Dan", socketId := "s4" }]

/-- A concrete lobby room hosted by `p1`. -/
def roomLobby : Room :=
  { code := "ABCDEF", hostId := "p1", phase := Phase.lobby,
    players := wPlayers, gameNumber := 0, settings := DEFAULT_SETTINGS }

/-- A concrete voting-phase room where `p2` is the imposter and three players
have confirmed votes against `p2` while `p2` voted for `p1`. -/
def roomVoting : Room :=
  { roomLobby with
      phase := Phase.voting,
      topic := some "Fruits",
      word := some "Apple",
      imposterId := some "p2",
      votes := [("p1", "p2"), ("p3", "p2"), ("p4", "p2"), ("p2", "p1")],
      confirmedVotes := [("p1", "p2"), ("p3", "p2"), ("p4", "p2"), ("p2", "p1")] }

/-- A concrete voting-phase room with empty vote maps. -/
def roomVotingFresh : Room :=
  { roomVoting with votes := [], confirmedVotes := [], pendingVotes := [] }

/-- A concrete description-phase room with speaking order `p1 p2 p3 p4` and
no submissions yet. -/
def roomDescription : Room :=
  { roomLobby with
      phase := Phase.description,
      topic := some "Fruits",
      word := some "Apple",
      imposterId := some "p2",
      speakingOrder := ["p1", "p2", "p3", "p4"],
      currentSpeakerIndex := 0,
      descriptions := [] }

-- =============================================================================
-- Lemmas about the association-list object model
-- =============================================================================

theorem lookupKV_nil (k : String) : lookupKV ([] : List (String × α)) k = none := rfl

theorem lookupKV_cons (p : String × α) (m : List (String × α)) (k : String) :
    lookupKV (p :: m) k = if p.1 = k then some p.2 else lookupKV m k := by
  by_cases h : p.1 = k
  · simp [lookupKV, List.find?_cons_of_pos, h]
  · simp only [lookupKV, if_neg h]
    rw [List.find?_cons_of_neg]
    simp [h]

theorem lookupKV_eq_none_iff (m : List (String × α)) (k : String) :
    lookupKV m k = none ↔ k ∉ m.map Prod.fst := by
  induction m with
  | nil => simp [lookupKV_nil]
  | cons p m ih =>
    rw [lookupKV_cons]
    by_cases h : p.1 = k
    · simp [h]
    · rw [if_neg h]
      simp only [List.map_cons, List.mem_cons]
      constructor
      · intro h1 h2
        rcases h2 with h2 | h2
        · exact h h2.symm
        · exact (ih.mp h1) h2
      · intro h1
        exact ih.mpr (fun hm => h1 (Or.inr hm))

theorem lookupKV_setKV_self (m : List (String × α)) (k : String) (v : α) :
    lookupKV (setKV m k v) k = some v := by
  induction m with
  | nil => simp [setKV, lookupKV_cons]
  | cons p m ih =>
    by_cases h : p.1 = k
    · simp [setKV, h, lookupKV_cons]
    · simp [setKV, h, lookupKV_cons, ih]

theorem lookupKV_setKV_ne (m : List (String × α)) (k k' : String) (v : α) (h : k' ≠ k) :
    lookupKV (setKV m k v) k' = lookupKV m k' := by
  have hne : ¬ (k = k') := fun hc => h hc.symm
  induction m with
  | nil =>
    simp [setKV, lookupKV_cons, lookupKV_nil, hne]
  | cons p m ih =>
    by_cases hp : p.1 = k
    · rw [setKV, if_pos hp, lookupKV_cons, lookupKV_cons, hp, if_neg hne, if_neg hne]
    · rw [setKV, if_neg hp, lookupKV_cons, lookupKV_cons, ih]

theorem mem_setKV (m : List (String × α)) (k : String) (v : α) (q : String × α)
    (hq : q ∈ setKV m k v) : q = (k, v) ∨ q ∈ m := by
  induction m with
  | nil => simp [setKV] at hq; simp [hq]
  | cons p m ih =>
    by_cases hp : p.1 = k
    · rw [setKV, if_pos hp] at hq
      rcases List.mem_cons.mp hq with h | h
      · exact Or.inl h
      · exact Or.inr (List.mem_cons_of_mem _ h)
    · rw [setKV, if_neg hp] at hq
      rcases List.mem_cons.mp hq with h | h
      · exact Or.inr (h ▸ List.mem_cons_self _ _)
      · rcases ih h with h' | h'
        · exact Or.inl h'
        · exact Or.inr (List.mem_cons_of_mem _ h')

theorem map_fst_setKV (m : List (String × α)) (k : String) (v : α) :
    (setKV m k v).map Prod.fst =
      if (lookupKV m k).isSome then m.map Prod.fst else m.map Prod.fst ++ [k] := by
  induction m with
  | nil => simp [setKV, lookupKV_nil]
  | cons p m ih =>
    rw [lookupKV_cons]
    by_cases hp : p.1 = k
    · simp [setKV, hp]
    · rw [setKV, if_neg hp, if_neg hp]
      cases hm : (lookupKV m k).isSome
      · simp only [List.map_cons, ih, hm, if_false, Bool.false_eq_true, List.cons_append]
      · simp only [List.map_cons, ih, hm, if_true]

theorem keysNodup_setKV (m : List (String × α)) (k : String) (v : α)
    (h : KeysNodup m) : KeysNodup (setKV m k v) := by
  unfold KeysNodup at *
  rw [map_fst_setKV]
  cases hm : (lookupKV m k).isSome
  · simp only [hm, Bool.false_eq_true, if_false]
    have hk : k ∉ m.map Prod.fst :=
      (lookupKV_eq_none_iff m k).mp (Option.not_isSome_iff_eq_none.mp (by simp [hm]))
    simp [List.nodup_append, h, hk]
  · simp only [hm, if_true]; exact h

theorem length_setKV (m : List (String × α)) (k : String) (v : α) :
    (setKV m k v).length =
      if (lookupKV m k).isSome then m.length else m.length + 1 := by
  have := congrArg List.length (map_fst_setKV m k v)
  simp only [List.length_map] at this
  cases hm : (lookupKV m k).isSome
  · rw [hm] at this; simpa using this
  · rw [hm] at this; simpa using this

theorem lookupKV_mem (m : List (String × α)) (k : String) (v : α)
    (h : lookupKV m k = some v) : (k, v) ∈ m := by
  induction m with
  | nil => simp [lookupKV_nil] at h
  | cons p m ih =>
    rw [lookupKV_cons] at h
    by_cases hp : p.1 = k
    · rw [if_pos hp] at h
      have hpv : p = (k, v) := by cases p; simp_all
      exact hpv ▸ List.mem_cons_self _ _
    · rw [if_neg hp] at h
      exact List.mem_cons_of_mem _ (ih h)

theorem mem_lookupKV_of_keysNodup (m : List (String × α)) (q : String × α)
    (hn : KeysNodup m) (hq : q ∈ m) : lookupKV m q.1 = some q.2 := by
  induction m with
  | nil => simp at hq
  | cons p m ih =>
    rw [lookupKV_cons]
    rcases List.mem_cons.mp hq with h | h
    · simp [h]
    · have hn2 : (m.map Prod.fst).Nodup := by
        unfold KeysNodup at hn
        simp only [List.map_cons, List.nodup_cons] at hn
        exact hn.2
      have hp1 : p.1 ≠ q.1 := by
        intro hc
        unfold KeysNodup at hn
        simp only [List.map_cons, List.nodup_cons] at hn
        exact hn.1 (hc ▸ List.mem_map_of_mem Prod.fst h)
      rw [if_neg hp1]
      exact ih hn2 h

-- =============================================================================
-- Voting-protocol invariants (claim C3 support)
-- =============================================================================

theorem selectVote_confirmedVotes (r : Room) (v t : String) :
    (selectVote r v t).room.confirmedVotes = r.confirmedVotes := by
  unfold selectVote
  split_ifs <;> rfl

theorem selectVote_room_pending (r : Room) (v t : String) :
    (selectVote r v t).room = r ∨
      ((selectVote r v t).room = { r with pendingVotes := setKV r.pendingVotes v t } ∧ v ≠ t) := by
  unfold selectVote
  split_ifs with h1 h2 h3 h4 h5 <;>
    first
      | exact Or.inl rfl
      | exact Or.inr ⟨rfl, by assumption⟩

theorem confirmVote_room_cases (r : Room) (v : String) :
    (confirmVote r v).room = r ∨
      ∃ t, lookupKV r.pendingVotes v = some t ∧
        lookupKV r.confirmedVotes v = none ∧
        (confirmVote r v).room =
          { r with confirmedVotes := setKV r.confirmedVotes v t,
                   votes := setKV r.votes v t } := by
  unfold confirmVote
  by_cases h1 : r.phase ≠ Phase.voting
  · rw [if_pos h1]; exact Or.inl rfl
  · rw [if_neg h1]
    by_cases h2 : ¬ hasPlayer r v
    · rw [if_pos h2]; exact Or.inl rfl
    · rw [if_neg h2]
      cases hp : lookupKV r.pendingVotes v with
      | none => exact Or.inl rfl
      | some t =>
        dsimp only
        by_cases h3 : (lookupKV r.confirmedVotes v).isSome
        · rw [if_pos h3]; exact Or.inl rfl
        · rw [if_neg h3]
          exact Or.inr ⟨t, rfl, Option.not_isSome_iff_eq_none.mp h3, rfl⟩

theorem autoConfirmStep_pending (acc : Room × Nat) (p : String × String) :
    (autoConfirmStep acc p).1.pendingVotes = acc.1.pendingVotes := by
  unfold autoConfirmStep
  split_ifs <;> rfl

theorem foldl_autoConfirm_pending (l : List (String × String)) (acc : Room × Nat) :
    (l.foldl autoConfirmStep acc).1.pendingVotes = acc.1.pendingVotes := by
  induction l generalizing acc with
  | nil => rfl
  | cons p l ih => rw [List.foldl_cons, ih, autoConfirmStep_pending]

theorem foldl_autoConfirm_confirm_mono (l : List (String × String)) (acc : Room × Nat)
    (x : String) (u : String) (h : lookupKV acc.1.confirmedVotes x = some u) :
    lookupKV ((l.foldl autoConfirmStep acc).1.confirmedVotes) x = some u := by
  induction l generalizing acc with
  | nil => exact h
  | cons p l ih =>
    rw [List.foldl_cons]
    apply ih
    unfold autoConfirmStep
    split_ifs with h1
    · exact h
    · show lookupKV (setKV acc.1.confirmedVotes p.1 p.2) x = some u
      have hx : x ≠ p.1 := by
        intro hc
        rw [hc] at h
        rw [h] at h1
        simp at h1
      rw [lookupKV_setKV_ne _ _ _ _ hx]
      exact h

theorem foldl_autoConfirm_confirm_src (l : List (String × String)) (acc : Room × Nat)
    (x : String) (u : String)
    (h : lookupKV ((l.foldl autoConfirmStep acc).1.confirmedVotes) x = some u) :
    lookupKV acc.1.confirmedVotes x = some u ∨ (x, u) ∈ l := by
  induction l generalizing acc with
  | nil => exact Or.inl h
  | cons p l ih =>
    rw [List.foldl_cons] at h
    rcases ih _ h with h' | h'
    · unfold autoConfirmStep at h'
      split_ifs at h' with h1
      · exact Or.inl h'
      · by_cases hx : x = p.1
        · rw [hx, lookupKV_setKV_self] at h'
          have : u = p.2 := (Option.some_inj.mp h').symm
          right
          rw [hx, this]
          exact List.mem_cons_self _ _
        · rw [lookupKV_setKV_ne _ _ _ _ hx] at h'
          exact Or.inl h'
    · exact Or.inr (List.mem_cons_of_mem _ h')

theorem foldl_autoConfirm_inv (l : List (String × String)) (acc : Room × Nat)
    (hk : KeysNodup acc.1.confirmedVotes) (hs : NoSelfVotes acc.1.confirmedVotes)
    (hl : ∀ p ∈ l, p.1 ≠ p.2) :
    KeysNodup ((l.foldl autoConfirmStep acc).1.confirmedVotes) ∧
      NoSelfVotes ((l.foldl autoConfirmStep acc).1.confirmedVotes) := by
  induction l generalizing acc with
  | nil => exact ⟨hk, hs⟩
  | cons p l ih =>
    rw [List.foldl_cons]
    apply ih
    · unfold autoConfirmStep
      split_ifs with h1
      · exact hk
      · exact keysNodup_setKV _ _ _ hk
    · unfold autoConfirmStep
      split_ifs with h1
      · exact hs
      · intro q hq
        rcases mem_setKV _ _ _ _ hq with he | hm
        · rw [he]
          exact hl p (List.mem_cons_self _ _)
        · exact hs q hm
    · exact fun q hq => hl q (List.mem_cons_of_mem _ hq)

theorem voteInv_applyVoteOp (r : Room) (op : VoteOp) (h : VoteInv r) :
    VoteInv (applyVoteOp r op) := by
  obtain ⟨hkp, hkc, hsp, hsc⟩ := h
  cases op with
  | select v t =>
    rcases selectVote_room_pending r v t with he | ⟨he, hvt⟩
    · rw [applyVoteOp, he]; exact ⟨hkp, hkc, hsp, hsc⟩
    · rw [applyVoteOp, he]
      refine ⟨keysNodup_setKV _ _ _ hkp, hkc, ?_, hsc⟩
      intro p hp
      rcases mem_setKV _ _ _ _ hp with he' | hm
      · rw [he']; exact hvt
      · exact hsp p hm
  | confirm v =>
    rcases confirmVote_room_cases r v with he | ⟨t, hpend, _, he⟩
    · rw [applyVoteOp, he]; exact ⟨hkp, hkc, hsp, hsc⟩
    · rw [applyVoteOp, he]
      have hvt : v ≠ t := hsp (v, t) (lookupKV_mem _ _ _ hpend)
      refine ⟨hkp, keysNodup_setKV _ _ _ hkc, hsp, ?_⟩
      intro p hp
      rcases mem_setKV _ _ _ _ hp with he' | hm
      · rw [he']; exact hvt
      · exact hsc p hm
  | autoConfirm =>
    rw [applyVoteOp]
    unfold autoConfirmPendingVotes
    split_ifs with h1
    · exact ⟨hkp, hkc, hsp, hsc⟩
    · have hfold := foldl_autoConfirm_inv r.pendingVotes (r, 0) hkc hsc hsp
      have hpend := foldl_autoConfirm_pending r.pendingVotes (r, 0)
      dsimp only
      refine ⟨?_, hfold.1, ?_, hfold.2⟩
      · rw [hpend]; exact hkp
      · rw [hpend]; exact hsp

theorem confirm_mono_applyVoteOp (r : Room) (op : VoteOp) (x u : String)
    (h : lookupKV r.confirmedVotes x = some u) :
    lookupKV (applyVoteOp r op).confirmedVotes x = some u := by
  cases op with
  | select v t => rw [applyVoteOp, selectVote_confirmedVotes]; exact h
  | confirm v =>
    rcases confirmVote_room_cases r v with he | ⟨t, _, hnone, he⟩
    · rw [applyVoteOp, he]; exact h
    · rw [applyVoteOp, he]
      have hx : x ≠ v := by
        intro hc
        rw [hc, hnone] at h
        cases h
      show lookupKV (setKV r.confirmedVotes v t) x = some u
      rw [lookupKV_setKV_ne _ _ _ _ hx]
      exact h
  | autoConfirm =>
    rw [applyVoteOp]
    unfold autoConfirmPendingVotes
    split_ifs with h1
    · exact h
    · exact foldl_autoConfirm_confirm_mono _ _ _ _ h

theorem confirm_src_applyVoteOp (r : Room) (op : VoteOp) (x u : String)
    (hinv : VoteInv r)
    (h : lookupKV (applyVoteOp r op).confirmedVotes x = some u) :
    lookupKV r.confirmedVotes x = some u ∨ lookupKV r.pendingVotes x = some u := by
  cases op with
  | select v t =>
    rw [applyVoteOp, selectVote_confirmedVotes] at h
    exact Or.inl h
  | confirm v =>
    rcases confirmVote_room_cases r v with he | ⟨t, hpend, _, he⟩
    · rw [applyVoteOp, he] at h; exact Or.inl h
    · rw [applyVoteOp, he] at h
      by_cases hx : x = v
      · subst hx
        rw [show ({ r with confirmedVotes := setKV r.confirmedVotes x t,
                           votes := setKV r.votes x t } : Room).confirmedVotes =
              setKV r.confirmedVotes x t from rfl, lookupKV_setKV_self] at h
        have : u = t := (Option.some_inj.mp h).symm
        right
        rw [this]
        exact hpend
      · rw [show ({ r with confirmedVotes := setKV r.confirmedVotes v t,
                           votes := setKV r.votes v t } : Room).confirmedVotes =
              setKV r.confirmedVotes v t from rfl, lookupKV_setKV_ne _ _ _ _ hx] at h
        exact Or.inl h
  | autoConfirm =>
    rw [applyVoteOp] at h
    unfold autoConfirmPendingVotes at h
    split_ifs at h with h1
    · exact Or.inl h
    · rcases foldl_autoConfirm_confirm_src _ _ _ _ h with h' | h'
      · exact Or.inl h'
      · exact Or.inr (mem_lookupKV_of_keysNodup _ _ hinv.1 h')

theorem voteInv_runVoteOps (r : Room) (ops : List VoteOp) (h : VoteInv r) :
    VoteInv (runVoteOps r ops) := by
  induction ops generalizing r with
  | nil => exact h
  | cons op ops ih => exact ih _ (voteInv_applyVoteOp r op h)

theorem confirm_mono_runVoteOps (r : Room) (ops : List VoteOp) (x u : String)
    (h : lookupKV r.confirmedVotes x = some u) :
    lookupKV (runVoteOps r ops).confirmedVotes x = some u := by
  induction ops generalizing r with
  | nil => exact h
  | cons op ops ih => exact ih _ (confirm_mono_applyVoteOp r op x u h)

theorem skipLoop_at_end (fuel : Nat) (r : Room)
    (h : r.speakingOrder.length ≤ r.currentSpeakerIndex) : skipLoop fuel r = r := by
  cases fuel with
  | zero => rfl
  | succ n =>
    rw [skipLoop]
    have hnone : r.speakingOrder.get? r.currentSpeakerIndex = none :=
      List.get?_eq_none.mpr h
    rw [hnone]

/-- Claim C3: over any sequence of `selectVote`, `confirmVote` and
`autoConfirmPendingVotes` operations on a room satisfying the voting
invariant - which `transitionToVotingPhase` establishes - no pending or
confirmed entry ever targets its own voter, an existing confirmed entry is
never replaced by a different target, and a step can create a confirmed
entry for a voter only out of that voter current pending selection. -/
theorem voting_protocol_invariants (r : Room) (ops : List VoteOp) (hr : VoteInv r) :
    VoteInv (runVoteOps r ops) ∧
    (∀ p ∈ (runVoteOps r ops).pendingVotes, p.1 ≠ p.2) ∧
    (∀ p ∈ (runVoteOps r ops).confirmedVotes, p.1 ≠ p.2) ∧
    (∀ x u, lookupKV r.confirmedVotes x = some u →
      lookupKV (runVoteOps r ops).confirmedVotes x = some u) ∧
    (∀ (s : Room) (op : VoteOp) (x u : String), VoteInv s →
      lookupKV (applyVoteOp s op).confirmedVotes x = some u →
      lookupKV s.confirmedVotes x = some u ∨ lookupKV s.pendingVotes x = some u) ∧
    (∀ (s : Room), (transitionToVotingPhase s).result = .ok () →
      VoteInv (transitionToVotingPhase s).room) := by
  have hinv := voteInv_runVoteOps r ops hr
  refine ⟨hinv, hinv.2.2.1, hinv.2.2.2, ?_, ?_, ?_⟩
  · exact fun x u h => confirm_mono_runVoteOps r ops x u h
  · exact fun s op x u hs h => confirm_src_applyVoteOp s op x u hs h
  · intro s hok
    unfold transitionToVotingPhase at hok ⊢
    by_cases h1 : s.phase ≠ Phase.description
    · rw [if_pos h1] at hok; cases hok
    · rw [if_neg h1]
      exact ⟨by simp [KeysNodup], by simp [KeysNodup],
        fun p hp => by simp at hp, fun p hp => by simp at hp⟩

theorem voting_protocol_invariants_witness :
    VoteInv (runVoteOps roomVotingFresh [VoteOp.select "p1" "p2", VoteOp.confirm "p1"]) :=
  (voting_protocol_invariants roomVotingFresh [VoteOp.select "p1" "p2", VoteOp.confirm "p1"]
    (by unfold VoteInv KeysNodup NoSelfVotes roomVotingFresh roomVoting roomLobby; simp)).1

/-- Claim C9: in the description phase, when the current speaker has no
stored entry yet, a submission of empty or whitespace-only text is accepted,
stored as the fixed placeholder, advances the speaker index, and is never
answered with the EMPTY_DESCRIPTION validation error. -/
theorem submitDescription_placeholder (r : Room) (playerId text : String)
    (hphase : r.phase = Phase.description)
    (hmem : hasPlayer r playerId)
    (hturn : r.speakingOrder.get? r.currentSpeakerIndex = some playerId)
    (hnew : lookupKV r.descriptions playerId = none)
    (hempty : jsTrim text = "") :
    (submitDescription r playerId text).result ≠ .error .EMPTY_DESCRIPTION ∧
    (∃ info, (submitDescription r playerId text).result = .ok info ∧
      info.storedDescription = "(No response)") ∧
    lookupKV (submitDescription r playerId text).room.descriptions playerId =
      some "(No response)" ∧
    (submitDescription r playerId text).room.currentSpeakerIndex =
      r.currentSpeakerIndex + 1 := by
  have h1 : ¬ (r.phase ≠ Phase.description) := by simp [hphase]
  have h2 : ¬ (¬ hasPlayer r playerId) := by simp [hmem]
  have h3 : ¬ (r.speakingOrder.get? r.currentSpeakerIndex ≠ some playerId) :=
    fun hc => hc hturn
  have h4 : ¬ ((lookupKV r.descriptions playerId).isSome = true) := by simp [hnew]
  unfold submitDescription
  rw [if_neg h1, if_neg h2, if_neg h3, if_neg h4]
  dsimp only
  rw [hempty]
  rw [if_pos (by decide : ("" : String).length = 0)]
  refine ⟨?_, ?_, ?_, ?_⟩
  · exact fun h => by cases h
  · exact ⟨_, rfl, rfl⟩
  · exact lookupKV_setKV_self _ _ _
  · rfl

theorem submitDescription_placeholder_witness :
    (submitDescription roomDescription "p1" "   ").result ≠ .error .EMPTY_DESCRIPTION ∧
    (∃ info, (submitDescription roomDescription "p1" "   ").result = .ok info ∧
      info.storedDescription = "(No response)") ∧
    lookupKV (submitDescription roomDescription "p1" "   ").room.descriptions "p1" =
      some "(No response)" ∧
    (submitDescription roomDescription "p1" "   ").room.currentSpeakerIndex =
      roomDescription.currentSpeakerIndex + 1 :=
  submitDescription_placeholder roomDescription "p1" "   " (by rfl) (by decide)
    (by rfl) (by rfl) (by decide)

/-- Claim C10: when the speaker index has reached the speaking-order length
(all turns consumed, phase not yet advanced), `submitDescription` answers
NOT_YOUR_TURN for any in-room caller without faulting on the out-of-range
index, and `getCurrentSpeaker` reports completion with a null speaker. -/
theorem exhausted_order_total (r : Room) (playerId text : String)
    (hphase : r.phase = Phase.description)
    (hmem : hasPlayer r playerId)
    (hidx : r.currentSpeakerIndex = r.speakingOrder.length) :
    (submitDescription r playerId text).result = .error .NOT_YOUR_TURN ∧
    (submitDescription r playerId text).room = r ∧
    (getCurrentSpeaker r).result = .ok { allComplete := true, currentSpeaker := none } ∧
    (getCurrentSpeaker r).room = r := by
  have h1 : ¬ (r.phase ≠ Phase.description) := by simp [hphase]
  have h2 : ¬ (¬ hasPlayer r playerId) := by simp [hmem]
  have hnone : r.speakingOrder.get? r.currentSpeakerIndex = none :=
    List.get?_eq_none.mpr (by rw [hidx])
  have h3 : r.speakingOrder.get? r.currentSpeakerIndex ≠ some playerId := by
    rw [hnone]; simp
  have hskip : skipLoop r.speakingOrder.length r = r :=
    skipLoop_at_end _ r (by rw [hidx])
  constructor
  · unfold submitDescription
    rw [if_neg h1, if_neg h2, if_pos h3]
  constructor
  · unfold submitDescription
    rw [if_neg h1, if_neg h2, if_pos h3]
  constructor
  · unfold getCurrentSpeaker
    rw [if_neg h1, hskip, if_pos (by rw [hidx])]
  · unfold getCurrentSpeaker
    rw [if_neg h1, hskip, if_pos (by rw [hidx])]

theorem exhausted_order_total_witness :
    (submitDescription { roomDescription with currentSpeakerIndex := 4 } "p1" "hi").result =
      .error .NOT_YOUR_TURN ∧
    (submitDescription { roomDescription with currentSpeakerIndex := 4 } "p1" "hi").room =
      { roomDescription with currentSpeakerIndex := 4 } ∧
    (getCurrentSpeaker { roomDescription with currentSpeakerIndex := 4 }).result =
      .ok { allComplete := true, currentSpeaker := none } ∧
    (getCurrentSpeaker { roomDescription with currentSpeakerIndex := 4 }).room =
      { roomDescription with currentSpeakerIndex := 4 } :=
  exhausted_order_total { roomDescription with currentSpeakerIndex := 4 } "p1" "hi"
    (by rfl) (by decide) (by rfl)

/-- Claim C7: disconnect of the current speaker in the description phase.
The placeholder is stored and completion is reported, but the speaker index
does NOT advance: the source guards the advance with
`currentSpeaker.id === playerId` where `currentSpeaker` is the id string
itself, so the property read yields `undefined` and the branch is dead. -/
theorem disconnect_current_speaker_no_advance :
    roomDescription.speakingOrder.get? roomDescription.currentSpeakerIndex = some "p1" ∧
    (handlePlayerDisconnectMidGame roomDescription "p1").1.autoSubmitted = true ∧
    lookupKV (handlePlayerDisconnectMidGame roomDescription "p1").2.descriptions "p1" =
      some "(Disconnected)" ∧
    (handlePlayerDisconnectMidGame roomDescription "p1").1.descriptionComplete = some false ∧
    (handlePlayerDisconnectMidGame roomDescription "p1").1.wasCurrentSpeaker = false ∧
    (handlePlayerDisconnectMidGame roomDescription "p1").2.currentSpeakerIndex =
      roomDescription.currentSpeakerIndex := by decide

-- =============================================================================
-- Failure atomicity (claim C8 support)
-- =============================================================================

theorem startGame_atomic (r : Room) (pid tp w : String) (k : Nat) (e : GameError)
    (h : (startGame r pid tp w k).result = .error e) :
    (startGame r pid tp w k).room = r := by
  unfold startGame at h ⊢
  split_ifs at h ⊢
  · rfl
  · rfl
  · rfl
  · cases hsel : selectRandomImposter r.players k with
    | none => rfl
    | some imp =>
      rw [hsel] at h
      dsimp only at h
      cases h

theorem confirmVote_atomic (r : Room) (v : String) (e : GameError)
    (h : (confirmVote r v).result = .error e) : (confirmVote r v).room = r := by
  unfold confirmVote at h ⊢
  by_cases h1 : r.phase ≠ Phase.voting
  · rw [if_pos h1]
  · rw [if_neg h1] at h ⊢
    by_cases h2 : ¬ hasPlayer r v
    · rw [if_pos h2]
    · rw [if_neg h2] at h ⊢
      cases hp : lookupKV r.pendingVotes v with
      | none => rfl
      | some t =>
        rw [hp] at h
        dsimp only at h ⊢
        by_cases h3 : (lookupKV r.confirmedVotes v).isSome
        · rw [if_pos h3]
        · rw [if_neg h3] at h
          cases h

theorem selectVote_atomic (r : Room) (v t : String) (e : GameError)
    (h : (selectVote r v t).result = .error e) : (selectVote r v t).room = r := by
  unfold selectVote at h ⊢
  split_ifs at h ⊢ <;> rfl

theorem updateRoomSettings_failure_shape (r : Room) (pid : String) (s : SettingsInput)
    (e : GameError) (h : (updateRoomSettings r pid s).result = .error e) :
    ∃ dt, (updateRoomSettings r pid s).room =
      { r with settings := { r.settings with descriptionTime := dt } } := by
  unfold updateRoomSettings at h ⊢
  by_cases h1 : r.phase ≠ Phase.lobby ∧ r.phase ≠ Phase.postGame
  · rw [if_pos h1]
    exact ⟨r.settings.descriptionTime, rfl⟩
  · rw [if_neg h1] at h ⊢
    by_cases h2 : r.hostId ≠ pid
    · rw [if_pos h2]
      exact ⟨r.settings.descriptionTime, rfl⟩
    · rw [if_neg h2] at h ⊢
      cases hd : s.descriptionTime with
      | nan => exact ⟨r.settings.descriptionTime, rfl⟩
      | undef =>
        rw [hd] at h
        dsimp only at h
        cases hv : s.votingTime with
        | nan => exact ⟨r.settings.descriptionTime, rfl⟩
        | undef => rw [hv] at h; dsimp only at h; cases h
        | val m =>
          rw [hv] at h
          dsimp only at h ⊢
          by_cases h3 : m < 15 ∨ m > 180
          · rw [if_pos h3]
            exact ⟨r.settings.descriptionTime, rfl⟩
          · rw [if_neg h3] at h
            cases h
      | val n =>
        rw [hd] at h
        dsimp only at h ⊢
        by_cases h3 : n < 5 ∨ n > 60
        · rw [if_pos h3]
          exact ⟨r.settings.descriptionTime, rfl⟩
        · rw [if_neg h3] at h ⊢
          cases hv : s.votingTime with
          | nan => exact ⟨n, rfl⟩
          | undef => rw [hv] at h; dsimp only at h; cases h
          | val m =>
            rw [hv] at h
            dsimp only at h ⊢
            by_cases h4 : m < 15 ∨ m > 180
            · rw [if_pos h4]
              exact ⟨n, rfl⟩
            · rw [if_neg h4] at h
              cases h

/-- Claim C8 (counterexample): a settings update with a valid
`descriptionTime` and an out-of-range `votingTime` fails, yet the applied
`descriptionTime` change survives the failed call. -/
theorem updateRoomSettings_partial_mutation :
    (updateRoomSettings roomLobby "p1"
      { descriptionTime := .val 20, votingTime := .val 9999 }).result =
      .error .INVALID_VALUE ∧
    (updateRoomSettings roomLobby "p1"
      { descriptionTime := .val 20, votingTime := .val 9999 }).room.settings.descriptionTime
      = 20 ∧
    roomLobby.settings.descriptionTime = 10 := by decide

/-- Claim C8 (amended): startGame, confirmVote and selectVote leave the room
untouched whenever they fail; a failing updateRoomSettings can differ from
the initial room only in the already-validated descriptionTime field (the
votingTime validation runs after that field was applied). -/
theorem failure_atomicity (r : Room) :
    (∀ (pid tp w : String) (k : Nat) (e : GameError),
      (startGame r pid tp w k).result = .error e → (startGame r pid tp w k).room = r) ∧
    (∀ (v : String) (e : GameError),
      (confirmVote r v).result = .error e → (confirmVote r v).room = r) ∧
    (∀ (v t : String) (e : GameError),
      (selectVote r v t).result = .error e → (selectVote r v t).room = r) ∧
    (∀ (pid : String) (s : SettingsInput) (e : GameError),
      (updateRoomSettings r pid s).result = .error e →
      ∃ dt, (updateRoomSettings r pid s).room =
        { r with settings := { r.settings with descriptionTime := dt } }) :=
  ⟨fun pid tp w k e h => startGame_atomic r pid tp w k e h,
   fun v e h => confirmVote_atomic r v e h,
   fun v t e h => selectVote_atomic r v t e h,
   fun pid s e h => updateRoomSettings_failure_shape r pid s e h⟩

theorem failure_atomicity_witness :
    (startGame roomLobby "p2" "Fruits" "Apple" 0).room = roomLobby ∧
    (confirmVote roomVotingFresh "p1").room = roomVotingFresh :=
  ⟨(failure_atomicity roomLobby).1 "p2" "Fruits" "Apple" 0 .NOT_HOST (by decide),
   (failure_atomicity roomVotingFresh).2.1 "p1" .NO_SELECTION (by decide)⟩

-- =============================================================================
-- Legacy one-step voting vs the two-step path (claim C5 support)
-- =============================================================================

theorem selectVote_success (r : Room) (v t : String)
    (h1 : r.phase = Phase.voting) (h2 : hasPlayer r v) (h3 : hasPlayer r t)
    (h4 : v ≠ t) (h6 : lookupKV r.confirmedVotes v = none) :
    selectVote r v t = ⟨.ok (), { r with pendingVotes := setKV r.pendingVotes v t }⟩ := by
  unfold selectVote
  rw [if_neg (by simp [h1]), if_neg (by simp [h2]), if_neg (by simp [h3]), if_neg h4,
      if_neg (by simp [h6])]

theorem confirmVote_success (r : Room) (v t : String)
    (h1 : r.phase = Phase.voting) (h2 : hasPlayer r v)
    (hp : lookupKV r.pendingVotes v = some t)
    (h6 : lookupKV r.confirmedVotes v = none) :
    confirmVote r v =
      ⟨.ok { allConfirmed := decide ((setKV r.confirmedVotes v t).length = r.players.length),
             confirmedCount := (setKV r.confirmedVotes v t).length,
             totalPlayers := r.players.length },
       { r with confirmedVotes := setKV r.confirmedVotes v t,
                votes := setKV r.votes v t }⟩ := by
  unfold confirmVote
  rw [if_neg (by simp [h1]), if_neg (by simp [h2]), hp]
  dsimp only
  rw [if_neg (by simp [h6])]

theorem submitVote_success (r : Room) (v t : String)
    (h1 : r.phase = Phase.voting) (h2 : hasPlayer r v) (h3 : hasPlayer r t)
    (h4 : v ≠ t) (h5 : lookupKV r.votes v = none) :
    submitVote r v t =
      ⟨.ok { allVoted := decide ((setKV r.votes v t).length = r.players.length),
             votedCount := (setKV r.votes v t).length,
             totalPlayers := r.players.length },
       { r with votes := setKV r.votes v t }⟩ := by
  unfold submitVote
  rw [if_neg (by simp [h1]), if_neg (by simp [h2]), if_neg (by simp [h3]), if_neg h4,
      if_neg (by simp [h5])]

/-- Claim C5 (counterexample): on a fresh voting room the one-step
`submitVote` and the two-step `selectVote` then `confirmVote` leave
different vote state (the one-step path never writes the pending or
confirmed maps), and a repeat vote fails with ALREADY_VOTED on the one-step
path but ALREADY_CONFIRMED on the two-step path. -/
theorem submitVote_not_equivalent :
    (submitVote roomVotingFresh "p1" "p2").room.confirmedVotes = [] ∧
    (selectThenConfirm roomVotingFresh "p1" "p2").2.confirmedVotes = [("p1", "p2")] ∧
    (submitVote roomVotingFresh "p1" "p2").room ≠
      (selectThenConfirm roomVotingFresh "p1" "p2").2 ∧
    (submitVote roomVoting "p1" "p3").result = .error .ALREADY_VOTED ∧
    (selectThenConfirm roomVoting "p1" "p3").1 = .error .ALREADY_CONFIRMED := by
  decide

/-- Claim C5 (amended): `submitVote` runs the same phase, membership and
self-vote validations as the two-step path and is tally-equivalent to it -
on a fresh voter both succeed and produce the same legacy `votes` map, the
one read by `calculateVoteResults` - but it reports ALREADY_VOTED instead of
ALREADY_CONFIRMED on a duplicate, and it never writes the `pendingVotes` or
`confirmedVotes` maps, which the two-step path does populate. -/
theorem submitVote_vs_twoStep (r : Room) (v t : String) :
    (r.phase ≠ Phase.voting →
      (submitVote r v t).result = .error .INVALID_PHASE ∧
      (selectThenConfirm r v t).1 = .error .INVALID_PHASE) ∧
    (r.phase = Phase.voting → ¬ hasPlayer r v →
      (submitVote r v t).result = .error .VOTER_NOT_IN_ROOM ∧
      (selectThenConfirm r v t).1 = .error .VOTER_NOT_IN_ROOM) ∧
    (r.phase = Phase.voting → hasPlayer r v → ¬ hasPlayer r t →
      (submitVote r v t).result = .error .TARGET_NOT_IN_ROOM ∧
      (selectThenConfirm r v t).1 = .error .TARGET_NOT_IN_ROOM) ∧
    (r.phase = Phase.voting → hasPlayer r v → hasPlayer r t → v = t →
      (submitVote r v t).result = .error .CANNOT_VOTE_SELF ∧
      (selectThenConfirm r v t).1 = .error .CANNOT_VOTE_SELF) ∧
    (r.phase = Phase.voting → hasPlayer r v → hasPlayer r t → v ≠ t →
      (lookupKV r.votes v).isSome → (lookupKV r.confirmedVotes v).isSome →
      (submitVote r v t).result = .error .ALREADY_VOTED ∧
      (selectThenConfirm r v t).1 = .error .ALREADY_CONFIRMED) ∧
    (r.phase = Phase.voting → hasPlayer r v → hasPlayer r t → v ≠ t →
      lookupKV r.votes v = none → lookupKV r.confirmedVotes v = none →
      (∃ i, (submitVote r v t).result = .ok i) ∧
      (∃ j, (selectThenConfirm r v t).1 = .ok j) ∧
      (submitVote r v t).room.votes = setKV r.votes v t ∧
      (selectThenConfirm r v t).2.votes = setKV r.votes v t ∧
      (submitVote r v t).room.pendingVotes = r.pendingVotes ∧
      (submitVote r v t).room.confirmedVotes = r.confirmedVotes ∧
      (selectThenConfirm r v t).2.pendingVotes = setKV r.pendingVotes v t ∧
      (selectThenConfirm r v t).2.confirmedVotes = setKV r.confirmedVotes v t) := by
  refine ⟨?_, ?_, ?_, ?_, ?_, ?_⟩
  · intro h1
    constructor
    · unfold submitVote
      rw [if_pos h1]
    · unfold selectThenConfirm selectVote
      rw [if_pos h1]
  · intro h1 h2
    have hs1 : ¬ (r.phase ≠ Phase.voting) := by simp [h1]
    constructor
    · unfold submitVote
      rw [if_neg hs1, if_pos h2]
    · unfold selectThenConfirm selectVote
      rw [if_neg hs1, if_pos h2]
  · intro h1 h2 h3
    have hs1 : ¬ (r.phase ≠ Phase.voting) := by simp [h1]
    have hs2 : ¬ ¬ hasPlayer r v := by simp [h2]
    constructor
    · unfold submitVote
      rw [if_neg hs1, if_neg hs2, if_pos h3]
    · unfold selectThenConfirm selectVote
      rw [if_neg hs1, if_neg hs2, if_pos h3]
  · intro h1 h2 h3 h4
    have hs1 : ¬ (r.phase ≠ Phase.voting) := by simp [h1]
    have hs2 : ¬ ¬ hasPlayer r v := by simp [h2]
    have hs3 : ¬ ¬ hasPlayer r t := by simp [h3]
    constructor
    · unfold submitVote
      rw [if_neg hs1, if_neg hs2, if_neg hs3, if_pos h4]
    · unfold selectThenConfirm selectVote
      rw [if_neg hs1, if_neg hs2, if_neg hs3, if_pos h4]
  · intro h1 h2 h3 h4 h5 h6
    have hs1 : ¬ (r.phase ≠ Phase.voting) := by simp [h1]
    have hs2 : ¬ ¬ hasPlayer r v := by simp [h2]
    have hs3 : ¬ ¬ hasPlayer r t := by simp [h3]
    constructor
    · unfold submitVote
      rw [if_neg hs1, if_neg hs2, if_neg hs3, if_neg h4, if_pos h5]
    · unfold selectThenConfirm selectVote
      rw [if_neg hs1, if_neg hs2, if_neg hs3, if_neg h4, if_pos h6]
  · intro h1 h2 h3 h4 h5 h6
    have hsel := selectVote_success r v t h1 h2 h3 h4 h6
    have hsub := submitVote_success r v t h1 h2 h3 h4 h5
    have hcon := confirmVote_success { r with pendingVotes := setKV r.pendingVotes v t }
      v t h1 h2 (lookupKV_setKV_self _ _ _) h6
    refine ⟨?_, ?_, ?_, ?_, ?_, ?_, ?_, ?_⟩
    · exact ⟨{ allVoted := decide ((setKV r.votes v t).length = r.players.length),
               votedCount := (setKV r.votes v t).length,
               totalPlayers := r.players.length }, by rw [hsub]⟩
    · refine ⟨{ allConfirmed := decide ((setKV r.confirmedVotes v t).length = r.players.length),
                confirmedCount := (setKV r.confirmedVotes v t).length,
                totalPlayers := r.players.length }, ?_⟩
      unfold selectThenConfirm
      rw [hsel]
      dsimp only
      rw [hcon]
    · rw [hsub]
    · unfold selectThenConfirm
      rw [hsel]
      dsimp only
      rw [hcon]
    · rw [hsub]
    · rw [hsub]
    · unfold selectThenConfirm
      rw [hsel]
      dsimp only
      rw [hcon]
    · unfold selectThenConfirm
      rw [hsel]
      dsimp only
      rw [hcon]

theorem submitVote_vs_twoStep_witness :
    (submitVote roomVotingFresh "p1" "p2").room.votes =
      setKV roomVotingFresh.votes "p1" "p2" ∧
    (selectThenConfirm roomVotingFresh "p1" "p2").2.votes =
      setKV roomVotingFresh.votes "p1" "p2" :=
  ⟨((submitVote_vs_twoStep roomVotingFresh "p1" "p2").2.2.2.2.2 (by decide) (by decide)
      (by decide) (by decide) (by decide) (by decide)).2.2.1,
   ((submitVote_vs_twoStep roomVotingFresh "p1" "p2").2.2.2.2.2 (by decide) (by decide)
      (by decide) (by decide) (by decide) (by decide)).2.2.2.1⟩

-- =============================================================================
-- Timer coordinator lemmas (claim C6 support)
-- =============================================================================

theorem lookupKV_append (m1 m2 : List (String × α)) (k : String) :
    lookupKV (m1 ++ m2) k = (lookupKV m1 k).or (lookupKV m2 k) := by
  simp only [lookupKV, List.find?_append]
  cases m1.find? (fun p => p.1 == k) <;> simp

theorem lookupKV_clearTimer_self (m : TimerMap) (rc : String) :
    lookupKV (clearTimer m rc) rc = none := by
  rw [lookupKV_eq_none_iff]
  intro hmem
  rcases List.mem_map.mp hmem with ⟨p, hp, hfst⟩
  have := List.of_mem_filter hp
  simp only [bne_iff_ne, ne_eq] at this
  exact this hfst

theorem lookupKV_clearTimer_ne (m : TimerMap) (rc rc' : String) (h : rc' ≠ rc) :
    lookupKV (clearTimer m rc) rc' = lookupKV m rc' := by
  unfold clearTimer
  induction m with
  | nil => rfl
  | cons p m ih =>
    rw [List.filter_cons]
    by_cases hp : p.1 = rc
    · rw [if_neg (by simp [hp]), ih, lookupKV_cons,
          if_neg (by rw [hp]; exact fun hc => h hc.symm)]
    · rw [if_pos (by simp [hp]), lookupKV_cons, lookupKV_cons]
      by_cases hq : p.1 = rc'
      · rw [if_pos hq, if_pos hq]
      · rw [if_neg hq, if_neg hq, ih]

theorem clearTimer_of_none (m : TimerMap) (rc : String)
    (h : timerLookup m rc = none) : clearTimer m rc = m := by
  unfold clearTimer
  apply List.filter_eq_self.mpr
  intro p hp
  have hk : rc ∉ m.map Prod.fst := (lookupKV_eq_none_iff m rc).mp h
  have hne : p.1 ≠ rc := fun hc => hk (hc ▸ List.mem_map_of_mem Prod.fst hp)
  simp [hne]

theorem clearTimer_idem (m : TimerMap) (rc : String) :
    clearTimer (clearTimer m rc) rc = clearTimer m rc :=
  clearTimer_of_none (clearTimer m rc) rc (lookupKV_clearTimer_self m rc)

theorem countP_clearTimer (m : TimerMap) (rc : String) :
    (clearTimer m rc).countP (fun p => p.1 == rc) = 0 := by
  rw [List.countP_eq_zero]
  intro p hp
  have := List.of_mem_filter hp
  simp only [bne_iff_ne, ne_eq] at this
  simp [this]

theorem keysNodup_clearTimer (m : TimerMap) (rc : String) (h : KeysNodup m) :
    KeysNodup (clearTimer m rc) := by
  unfold KeysNodup at *
  have hsub : List.Sublist (clearTimer m rc) m := List.filter_sublist m
  exact List.Nodup.sublist (List.Sublist.map Prod.fst hsub) h

theorem intervalTrace_closed (n : Nat) (h : 1 ≤ n) :
    intervalTrace n = ((List.range n).reverse.map TimerEvent.tick) ++ [TimerEvent.expire] := by
  induction n with
  | zero => cases h
  | succ k ih =>
    by_cases hk : 1 ≤ k
    · rw [intervalTrace, if_neg (by omega), ih hk, List.range_succ]
      simp
    · have hk0 : k = 0 := by omega
      subst hk0
      rfl

/-- Claim C6 (timer coordinator contract, caller-supplied duration modelled
from the spec): `startTimer` first cancels any prior timer for the room so
at most one timer entry per room ever exists, registers the new countdown,
ticks immediately with the full duration and then once per second with the
decremented remainder down to zero, fires the expiry exactly once after the
zero tick and deallocates itself without restarting, and `clearTimer` is
idempotent and a no-op when no timer is live. -/
theorem timer_coordinator_contract (m : TimerMap) (roomCode phase : String) (d : Nat)
    (hd : 1 ≤ d) :
    timerTrace d = ((List.range (d + 1)).reverse.map TimerEvent.tick) ++
      [TimerEvent.expire] ∧
    (timerTrace d).count TimerEvent.expire = 1 ∧
    (timerTrace d).head? = some (TimerEvent.tick d) ∧
    (∀ rc, rc ≠ roomCode →
      timerLookup (startTimer m roomCode phase d) rc = timerLookup m rc) ∧
    timerLookup (startTimer m roomCode phase d) roomCode =
      some { phase := phase, remainingSeconds := d } ∧
    (startTimer m roomCode phase d).countP (fun p => p.1 == roomCode) ≤ 1 ∧
    (KeysNodup m → KeysNodup (startTimer m roomCode phase d)) ∧
    timerLookup (timerMapAfterExpiry m roomCode phase d) roomCode = none ∧
    clearTimer (clearTimer m roomCode) roomCode = clearTimer m roomCode ∧
    (timerLookup m roomCode = none → clearTimer m roomCode = m) := by
  have hd0 : d ≠ 0 := by omega
  have hstart : startTimer m roomCode phase d =
      clearTimer m roomCode ++ [(roomCode, { phase := phase, remainingSeconds := d })] := by
    unfold startTimer
    rw [if_neg hd0]
  have htrace : timerTrace d =
      ((List.range (d + 1)).reverse.map TimerEvent.tick) ++ [TimerEvent.expire] := by
    unfold timerTrace
    rw [if_neg hd0, intervalTrace_closed d hd, List.range_succ]
    simp
  refine ⟨htrace, ?_, ?_, ?_, ?_, ?_, ?_, ?_, clearTimer_idem m roomCode,
    clearTimer_of_none m roomCode⟩
  · rw [htrace, List.count_append]
    simp [List.count_eq_zero]
  · rw [htrace, List.range_succ]
    simp
  · intro rc hrc
    unfold timerLookup
    rw [hstart, lookupKV_append, lookupKV_clearTimer_ne m roomCode rc hrc]
    cases hm : lookupKV m rc
    · have hne : ¬ (roomCode = rc) := fun hc => hrc hc.symm
      simp [lookupKV_cons, hne, lookupKV_nil]
    · simp
  · unfold timerLookup
    rw [hstart, lookupKV_append, lookupKV_clearTimer_self]
    simp [lookupKV_cons]
  · rw [hstart, List.countP_append, countP_clearTimer]
    simp
  · intro hm
    unfold KeysNodup
    rw [hstart]
    simp only [List.map_append, List.map_cons, List.map_nil]
    rw [List.nodup_append]
    refine ⟨keysNodup_clearTimer m roomCode hm, List.nodup_singleton _, ?_⟩
    intro x hx
    have hnone : lookupKV (clearTimer m roomCode) roomCode = none :=
      lookupKV_clearTimer_self m roomCode
    have hnk := (lookupKV_eq_none_iff _ _).mp hnone
    simp only [List.mem_singleton]
    intro hxr
    rw [hxr] at hx
    exact hnk hx
  · unfold timerMapAfterExpiry timerLookup
    exact lookupKV_clearTimer_self _ _

theorem timer_coordinator_contract_witness :
    timerTrace 3 = [TimerEvent.tick 3, TimerEvent.tick 2, TimerEvent.tick 1,
                    TimerEvent.tick 0, TimerEvent.expire] ∧
    (timerTrace 3).count TimerEvent.expire = 1 ∧
    timerLookup (startTimer [] "R1" "voting" 3) "R1" =
      some { phase := "voting", remainingSeconds := 3 } ∧
    timerLookup (timerMapAfterExpiry [] "R1" "voting" 3) "R1" = none := by
  have h := timer_coordinator_contract [] "R1" "voting" 3 (by decide)
  exact ⟨by decide, h.2.1, h.2.2.2.2.1, h.2.2.2.2.2.2.2.1⟩

-- =============================================================================
-- Fisher-Yates permutation and speaker-index monotonicity (claim C4 support)
-- =============================================================================

theorem count_set [DecidableEq α] (l : List α) (n : Nat) (a x : α) (h : n < l.length) :
    (l.set n a).count x + (if l[n] = x then 1 else 0) =
      l.count x + (if a = x then 1 else 0) := by
  induction l generalizing n with
  | nil => simp at h
  | cons y l ih =>
    cases n with
    | zero =>
      simp only [List.set, List.count_cons, List.getElem_cons_zero, beq_iff_eq]
      split_ifs <;> omega
    | succ n =>
      have hn : n < l.length := by simpa using h
      simp only [List.set, List.count_cons, List.getElem_cons_succ, beq_iff_eq]
      have := ih n hn
      split_ifs at this ⊢ <;> omega

theorem swapList_perm [DecidableEq α] (l : List α) (i j : Nat) :
    (swapList l i j).Perm l := by
  unfold swapList
  cases hi : l.get? i with
  | none => exact List.Perm.refl l
  | some a =>
    cases hj : l.get? j with
    | none => exact List.Perm.refl l
    | some b =>
      obtain ⟨hi1, hi2⟩ := List.get?_eq_some.mp hi
      obtain ⟨hj1, hj2⟩ := List.get?_eq_some.mp hj
      have hia : l[i] = a := by simpa using hi2
      have hjb : l[j] = b := by simpa using hj2
      have hj1' : j < (l.set i b).length := by simpa using hj1
      dsimp only
      apply List.perm_iff_count.mpr
      intro x
      have e1 := count_set (l.set i b) j a x hj1'
      have e2 := count_set l i b x hi1
      rw [hia] at e2
      by_cases hij : i = j
      · subst hij
        have hget : (l.set i b)[i] = b := List.getElem_set_self _
        rw [hget] at e1
        split_ifs at e1 e2 ⊢ <;> omega
      · have hget : (l.set i b)[j] = l[j] :=
          List.getElem_set_of_ne hij b hj1'
        rw [hget, hjb] at e1
        split_ifs at e1 e2 ⊢ <;> omega

theorem fisherYatesAux_perm [DecidableEq α] (rand : List Nat) (i : Nat) (l : List α) :
    (fisherYatesAux rand i l).Perm l := by
  induction i generalizing rand l with
  | zero => exact List.Perm.refl l
  | succ i ih =>
    rw [fisherYatesAux]
    exact (ih rand.tail _).trans (swapList_perm l _ _)

theorem shuffleArray_perm [DecidableEq α] (rand : List Nat) (l : List α) :
    (shuffleArray rand l).Perm l := by
  unfold shuffleArray
  split
  · exact List.Perm.refl l
  · exact fisherYatesAux_perm rand _ l

theorem skipLoop_speakingOrder (fuel : Nat) (r : Room) :
    (skipLoop fuel r).speakingOrder = r.speakingOrder := by
  induction fuel generalizing r with
  | zero => rfl
  | succ fuel ih =>
    rw [skipLoop]
    cases r.speakingOrder.get? r.currentSpeakerIndex with
    | none => rfl
    | some speakerId =>
      dsimp only
      by_cases h : hasPlayer r speakerId
      · rw [if_pos h]
      · rw [if_neg h, ih]

theorem skipLoop_index_mono (fuel : Nat) (r : Room) :
    r.currentSpeakerIndex ≤ (skipLoop fuel r).currentSpeakerIndex := by
  induction fuel generalizing r with
  | zero => exact le_refl _
  | succ fuel ih =>
    rw [skipLoop]
    cases r.speakingOrder.get? r.currentSpeakerIndex with
    | none => exact le_refl _
    | some speakerId =>
      dsimp only
      by_cases h : hasPlayer r speakerId
      · rw [if_pos h]
      · rw [if_neg h]
        have hrec := ih { r with
          descriptions :=
            if (lookupKV r.descriptions speakerId).isSome then r.descriptions
            else setKV r.descriptions speakerId "(Disconnected)",
          currentSpeakerIndex := r.currentSpeakerIndex + 1 }
        exact le_trans (Nat.le_succ _) hrec

theorem skipLoop_index_le (fuel : Nat) (r : Room)
    (h : r.currentSpeakerIndex ≤ r.speakingOrder.length) :
    (skipLoop fuel r).currentSpeakerIndex ≤ r.speakingOrder.length := by
  induction fuel generalizing r with
  | zero => exact h
  | succ fuel ih =>
    rw [skipLoop]
    cases hget : r.speakingOrder.get? r.currentSpeakerIndex with
    | none => exact h
    | some speakerId =>
      dsimp only
      by_cases hp : hasPlayer r speakerId
      · rw [if_pos hp]; exact h
      · rw [if_neg hp]
        have hlt : r.currentSpeakerIndex < r.speakingOrder.length :=
          (List.get?_eq_some.mp hget).1
        have := ih { r with
          descriptions :=
            if (lookupKV r.descriptions speakerId).isSome then r.descriptions
            else setKV r.descriptions speakerId "(Disconnected)",
          currentSpeakerIndex := r.currentSpeakerIndex + 1 } (by simpa using hlt)
        simpa using this

theorem submitDescription_turn (s : Room) (pid text : String) :
    s.currentSpeakerIndex ≤ (submitDescription s pid text).room.currentSpeakerIndex ∧
    (submitDescription s pid text).room.speakingOrder = s.speakingOrder ∧
    (s.currentSpeakerIndex ≤ s.speakingOrder.length →
      (submitDescription s pid text).room.currentSpeakerIndex ≤ s.speakingOrder.length) := by
  unfold submitDescription
  by_cases h1 : s.phase ≠ Phase.description
  · rw [if_pos h1]; exact ⟨le_refl _, rfl, fun h => h⟩
  · rw [if_neg h1]
    by_cases h2 : ¬ hasPlayer s pid
    · rw [if_pos h2]; exact ⟨le_refl _, rfl, fun h => h⟩
    · rw [if_neg h2]
      by_cases h3 : s.speakingOrder.get? s.currentSpeakerIndex ≠ some pid
      · rw [if_pos h3]; exact ⟨le_refl _, rfl, fun h => h⟩
      · rw [if_neg h3]
        by_cases h4 : (lookupKV s.descriptions pid).isSome
        · rw [if_pos h4]; exact ⟨le_refl _, rfl, fun h => h⟩
        · rw [if_neg h4]
          have hsome : s.speakingOrder.get? s.currentSpeakerIndex = some pid := by
            by_contra hc
            exact h3 hc
          have hlt : s.currentSpeakerIndex < s.speakingOrder.length :=
            (List.get?_eq_some.mp hsome).1
          exact ⟨Nat.le_succ _, rfl, fun _ => by simpa using hlt⟩

theorem getCurrentSpeaker_turn (s : Room) :
    s.currentSpeakerIndex ≤ (getCurrentSpeaker s).room.currentSpeakerIndex ∧
    (getCurrentSpeaker s).room.speakingOrder = s.speakingOrder ∧
    (s.currentSpeakerIndex ≤ s.speakingOrder.length →
      (getCurrentSpeaker s).room.currentSpeakerIndex ≤ s.speakingOrder.length) := by
  unfold getCurrentSpeaker
  by_cases h1 : s.phase ≠ Phase.description
  · rw [if_pos h1]; exact ⟨le_refl _, rfl, fun h => h⟩
  · rw [if_neg h1]
    have hmono := skipLoop_index_mono s.speakingOrder.length s
    have horder := skipLoop_speakingOrder s.speakingOrder.length s
    by_cases h2 : (skipLoop s.speakingOrder.length s).currentSpeakerIndex ≥
        (skipLoop s.speakingOrder.length s).speakingOrder.length
    · rw [if_pos h2]; exact ⟨hmono, horder, fun h => skipLoop_index_le _ _ h⟩
    · rw [if_neg h2]
      cases (skipLoop s.speakingOrder.length s).speakingOrder.get?
          (skipLoop s.speakingOrder.length s).currentSpeakerIndex with
      | none => exact ⟨hmono, horder, fun h => skipLoop_index_le _ _ h⟩
      | some csId =>
        dsimp only
        cases getPlayer (skipLoop s.speakingOrder.length s) csId with
        | none => exact ⟨hmono, horder, fun h => skipLoop_index_le _ _ h⟩
        | some p => exact ⟨hmono, horder, fun h => skipLoop_index_le _ _ h⟩

theorem autoSubmitCurrentSpeaker_turn (s : Room) :
    s.currentSpeakerIndex ≤ (autoSubmitCurrentSpeaker s).room.currentSpeakerIndex ∧
    (autoSubmitCurrentSpeaker s).room.speakingOrder = s.speakingOrder ∧
    (s.currentSpeakerIndex ≤ s.speakingOrder.length →
      (autoSubmitCurrentSpeaker s).room.currentSpeakerIndex ≤ s.speakingOrder.length) := by
  unfold autoSubmitCurrentSpeaker
  by_cases h1 : s.phase ≠ Phase.description
  · rw [if_pos h1]; exact ⟨le_refl _, rfl, fun h => h⟩
  · rw [if_neg h1]
    cases hget : s.speakingOrder.get? s.currentSpeakerIndex with
    | none => exact ⟨le_refl _, rfl, fun h => h⟩
    | some currentSpeakerId =>
      dsimp only
      have hlt : s.currentSpeakerIndex < s.speakingOrder.length :=
        (List.get?_eq_some.mp hget).1
      by_cases h2 : ¬ hasPlayer s currentSpeakerId
      · rw [if_pos h2]
        dsimp only
        have hmono := skipLoop_index_mono
          ((s.speakingOrder.length))
          { s with currentSpeakerIndex := s.currentSpeakerIndex + 1 }
        have horder := skipLoop_speakingOrder
          ((s.speakingOrder.length))
          { s with currentSpeakerIndex := s.currentSpeakerIndex + 1 }
        have hle := skipLoop_index_le
          ((s.speakingOrder.length))
          { s with currentSpeakerIndex := s.currentSpeakerIndex + 1 }
          (by simpa using hlt)
        refine ⟨le_trans (Nat.le_succ _) (by simpa using hmono), by simpa using horder,
          fun _ => by simpa using hle⟩
      · rw [if_neg h2]
        exact ⟨Nat.le_succ _, rfl, fun _ => by simpa using hlt⟩

theorem handleDisconnect_turn (s : Room) (pid : String) :
    s.currentSpeakerIndex ≤
      (handlePlayerDisconnectMidGame s pid).2.currentSpeakerIndex ∧
    (handlePlayerDisconnectMidGame s pid).2.speakingOrder = s.speakingOrder ∧
    (s.currentSpeakerIndex ≤ s.speakingOrder.length →
      (handlePlayerDisconnectMidGame s pid).2.currentSpeakerIndex ≤
        s.speakingOrder.length) := by
  unfold handlePlayerDisconnectMidGame
  by_cases h1 : s.phase = Phase.description
  · rw [if_pos h1]
    cases hld : lookupKV s.descriptions pid with
    | some d => exact ⟨le_refl _, rfl, fun h => h⟩
    | none =>
      dsimp only
      cases hget : s.speakingOrder.get? s.currentSpeakerIndex with
      | none => exact ⟨le_refl _, rfl, fun h => h⟩
      | some currentSpeaker =>
        dsimp only
        have hdead : ¬ (stringDotId currentSpeaker = some pid) := by
          unfold stringDotId
          simp
        rw [if_neg hdead]
        exact ⟨le_refl _, rfl, fun h => h⟩
  · rw [if_neg h1]
    by_cases h2 : s.phase = Phase.voting
    · rw [if_pos h2]; exact ⟨le_refl _, rfl, fun h => h⟩
    · rw [if_neg h2]; exact ⟨le_refl _, rfl, fun h => h⟩

/-- Claim C4: at description-phase entry the speaking order is a permutation
of the current player ids - no duplicates, no omissions - and the speaker
index starts at 0; under submitDescription, autoSubmitCurrentSpeaker,
getCurrentSpeaker and disconnect handling the index never decreases, the
order itself never changes, and an index within bounds stays within
bounds. -/
theorem speaking_order_turn_invariants (r : Room) (rand : List Nat)
    (hphase : r.phase = Phase.roleReveal)
    (hnodup : (r.players.map Player.id).Nodup) :
    ((transitionToDescriptionPhase r rand).room.speakingOrder.Perm
      (r.players.map Player.id)) ∧
    (transitionToDescriptionPhase r rand).room.speakingOrder.Nodup ∧
    (∀ pid, pid ∈ (transitionToDescriptionPhase r rand).room.speakingOrder ↔
      pid ∈ r.players.map Player.id) ∧
    (transitionToDescriptionPhase r rand).room.currentSpeakerIndex = 0 ∧
    (∀ (s : Room) (pid text : String),
      s.currentSpeakerIndex ≤ (submitDescription s pid text).room.currentSpeakerIndex ∧
      (submitDescription s pid text).room.speakingOrder = s.speakingOrder ∧
      (s.currentSpeakerIndex ≤ s.speakingOrder.length →
        (submitDescription s pid text).room.currentSpeakerIndex ≤
          s.speakingOrder.length)) ∧
    (∀ s : Room,
      s.currentSpeakerIndex ≤ (autoSubmitCurrentSpeaker s).room.currentSpeakerIndex ∧
      (autoSubmitCurrentSpeaker s).room.speakingOrder = s.speakingOrder ∧
      (s.currentSpeakerIndex ≤ s.speakingOrder.length →
        (autoSubmitCurrentSpeaker s).room.currentSpeakerIndex ≤
          s.speakingOrder.length)) ∧
    (∀ s : Room,
      s.currentSpeakerIndex ≤ (getCurrentSpeaker s).room.currentSpeakerIndex ∧
      (getCurrentSpeaker s).room.speakingOrder = s.speakingOrder ∧
      (s.currentSpeakerIndex ≤ s.speakingOrder.length →
        (getCurrentSpeaker s).room.currentSpeakerIndex ≤ s.speakingOrder.length)) ∧
    (∀ (s : Room) (pid : String),
      s.currentSpeakerIndex ≤
        (handlePlayerDisconnectMidGame s pid).2.currentSpeakerIndex ∧
      (handlePlayerDisconnectMidGame s pid).2.speakingOrder = s.speakingOrder ∧
      (s.currentSpeakerIndex ≤ s.speakingOrder.length →
        (handlePlayerDisconnectMidGame s pid).2.currentSpeakerIndex ≤
          s.speakingOrder.length)) := by
  have hn : ¬ (r.phase ≠ Phase.roleReveal) := by simp [hphase]
  have hroom : (transitionToDescriptionPhase r rand).room =
      { r with phase := Phase.description,
               descriptions := [],
               speakingOrder := shuffleArray rand (r.players.map Player.id),
               currentSpeakerIndex := 0 } := by
    unfold transitionToDescriptionPhase
    rw [if_neg hn]
  rw [hroom]
  have hperm : (shuffleArray rand (r.players.map Player.id)).Perm
      (r.players.map Player.id) := shuffleArray_perm rand _
  exact ⟨hperm, hperm.symm.nodup hnodup, fun pid => hperm.mem_iff, rfl,
    submitDescription_turn, autoSubmitCurrentSpeaker_turn, getCurrentSpeaker_turn,
    handleDisconnect_turn⟩

theorem speaking_order_turn_invariants_witness :
    ((transitionToDescriptionPhase { roomLobby with phase := Phase.roleReveal }
        [3, 1, 2]).room.speakingOrder.Perm ["p1", "p2", "p3", "p4"]) ∧
    (transitionToDescriptionPhase { roomLobby with phase := Phase.roleReveal }
        [3, 1, 2]).room.currentSpeakerIndex = 0 := by
  have h := speaking_order_turn_invariants { roomLobby with phase := Phase.roleReveal }
    [3, 1, 2] (by rfl) (by decide)
  exact ⟨h.1, h.2.2.2.1⟩

-- =============================================================================
-- Vote resolution lemmas (claim C1 support)
-- =============================================================================

theorem map_fst_bumpCount (m : List (String × Nat)) (k : String) :
    (bumpCount m k).map Prod.fst = m.map Prod.fst := by
  unfold bumpCount
  split_ifs
  · rw [List.map_map]
    apply List.map_congr_left
    intro p _
    by_cases hp : p.1 = k <;> simp [hp]
  · rfl

theorem foldl_bump_keys (votes : List (String × String)) (acc : List (String × Nat)) :
    (votes.foldl (fun m kv => bumpCount m kv.2) acc).map Prod.fst = acc.map Prod.fst := by
  induction votes generalizing acc with
  | nil => rfl
  | cons kv votes ih => rw [List.foldl_cons, ih, map_fst_bumpCount]

theorem map_fst_voteCounts (r : Room) :
    (voteCounts r).map Prod.fst = r.players.map Player.id := by
  unfold voteCounts initCounts
  rw [foldl_bump_keys, List.map_map]
  rfl

theorem lookupKV_isSome_of_mem_keys (m : List (String × α)) (k : String)
    (h : k ∈ m.map Prod.fst) : (lookupKV m k).isSome := by
  cases hm : lookupKV m k with
  | none => exact absurd h ((lookupKV_eq_none_iff m k).mp hm)
  | some v => rfl

theorem maxVotes_le_foldl (counts : List (String × Nat)) (mx : Nat) :
    mx ≤ counts.foldl (fun mx p => if p.2 > mx then p.2 else mx) 0 →
      True := fun _ => trivial

theorem foldl_max_ge_init (counts : List (String × Nat)) (mx : Nat) :
    mx ≤ counts.foldl (fun mx p => if p.2 > mx then p.2 else mx) mx := by
  induction counts generalizing mx with
  | nil => exact le_refl _
  | cons p counts ih =>
    rw [List.foldl_cons]
    by_cases hp : p.2 > mx
    · rw [if_pos hp]
      exact le_trans (le_of_lt hp) (ih p.2)
    · rw [if_neg hp]
      exact ih mx

theorem foldl_max_ge_elem (counts : List (String × Nat)) (mx : Nat) (q : String × Nat)
    (hq : q ∈ counts) :
    q.2 ≤ counts.foldl (fun mx p => if p.2 > mx then p.2 else mx) mx := by
  induction counts generalizing mx with
  | nil => simp at hq
  | cons p counts ih =>
    rw [List.foldl_cons]
    rcases List.mem_cons.mp hq with he | hm
    · subst he
      by_cases hp : q.2 > mx
      · rw [if_pos hp]
        exact foldl_max_ge_init counts q.2
      · rw [if_neg hp]
        exact le_trans (Nat.le_of_not_lt hp) (foldl_max_ge_init counts mx)
    · by_cases hp : p.2 > mx
      · rw [if_pos hp]; exact ih p.2 hm
      · rw [if_neg hp]; exact ih mx hm

theorem foldl_max_mem (counts : List (String × Nat)) (mx : Nat) :
    counts.foldl (fun mx p => if p.2 > mx then p.2 else mx) mx = mx ∨
      ∃ q ∈ counts, counts.foldl (fun mx p => if p.2 > mx then p.2 else mx) mx = q.2 := by
  induction counts generalizing mx with
  | nil => exact Or.inl rfl
  | cons p counts ih =>
    rw [List.foldl_cons]
    by_cases hp : p.2 > mx
    · rw [if_pos hp]
      rcases ih p.2 with h | ⟨q, hq, h⟩
      · exact Or.inr ⟨p, List.mem_cons_self _ _, h⟩
      · exact Or.inr ⟨q, List.mem_cons_of_mem _ hq, h⟩
    · rw [if_neg hp]
      rcases ih mx with h | ⟨q, hq, h⟩
      · exact Or.inl h
      · exact Or.inr ⟨q, List.mem_cons_of_mem _ hq, h⟩

theorem mem_playersWithMaxVotes (counts : List (String × Nat)) (mx : Nat) (pid : String) :
    pid ∈ playersWithMaxVotes counts mx ↔ ∃ c, (pid, c) ∈ counts ∧ c = mx := by
  unfold playersWithMaxVotes
  simp only [List.mem_map, List.mem_filter]
  constructor
  · rintro ⟨q, ⟨hq, hc⟩, hfst⟩
    refine ⟨q.2, ?_, by simpa using hc⟩
    rw [← hfst, Prod.mk.eta]
    exact hq
  · rintro ⟨c, hmem, hc⟩
    exact ⟨(pid, c), ⟨hmem, by simpa using hc⟩, rfl⟩

theorem insertDesc_perm (x : SummaryEntry) (l : List SummaryEntry) :
    (insertDesc x l).Perm (x :: l) := by
  induction l with
  | nil => exact List.Perm.refl _
  | cons y ys ih =>
    rw [insertDesc]
    by_cases h : y.votes > x.votes
    · rw [if_pos h]
      exact (ih.cons y).trans (List.Perm.swap x y ys)
    · rw [if_neg h]

theorem sortDesc_perm (l : List SummaryEntry) : (sortDesc l).Perm l := by
  induction l with
  | nil => exact List.Perm.refl _
  | cons x xs ih =>
    rw [sortDesc]
    exact (insertDesc_perm x (sortDesc xs)).trans (ih.cons x)

theorem insertDesc_sorted (x : SummaryEntry) (l : List SummaryEntry)
    (h : List.Sorted (fun a b => b.votes ≤ a.votes) l) :
    List.Sorted (fun a b => b.votes ≤ a.votes) (insertDesc x l) := by
  induction l with
  | nil => exact List.sorted_singleton x
  | cons y ys ih =>
    rw [insertDesc]
    rw [List.sorted_cons] at h
    by_cases hv : y.votes > x.votes
    · rw [if_pos hv]
      rw [List.sorted_cons]
      refine ⟨?_, ih h.2⟩
      intro z hz
      have hz' : z ∈ x :: ys := (insertDesc_perm x ys).mem_iff.mp hz
      rcases List.mem_cons.mp hz' with he | hm
      · subst he
        exact le_of_lt hv
      · exact h.1 z hm
    · rw [if_neg hv]
      rw [List.sorted_cons]
      refine ⟨?_, by rw [List.sorted_cons]; exact h⟩
      intro z hz
      rcases List.mem_cons.mp hz with he | hm
      · subst he
        exact Nat.le_of_not_lt hv
      · exact le_trans (h.1 z hm) (Nat.le_of_not_lt hv)

theorem sortDesc_sorted (l : List SummaryEntry) :
    List.Sorted (fun a b => b.votes ≤ a.votes) (sortDesc l) := by
  induction l with
  | nil => exact List.sorted_nil
  | cons x xs ih =>
    rw [sortDesc]
    exact insertDesc_sorted x (sortDesc xs) ih

theorem filterMap_summary_pre (r : Room) (counts : List (String × Nat))
    (hall : ∀ p ∈ counts, (getPlayer r p.1).isSome) :
    (counts.filterMap (fun p =>
        (getPlayer r p.1).map (fun q => (⟨p.1, q.name, p.2⟩ : SummaryEntry)))).map
      (fun e => (e.playerId, e.votes)) = counts := by
  induction counts with
  | nil => rfl
  | cons p counts ih =>
    rw [List.filterMap_cons]
    cases hq : getPlayer r p.1 with
    | none =>
      exact absurd hq (by
        have := hall p (List.mem_cons_self _ _)
        intro hc
        rw [hc] at this
        cases this)
    | some q =>
      simp only [Option.map_some', List.map_cons, Prod.mk.eta]
      rw [ih (fun p hp => hall p (List.mem_cons_of_mem _ hp))]

/-- Claim C1: in the voting phase, resolution tallies the confirmed votes
(the legacy `votes` map, kept in sync with `confirmedVotes`); `maxTally` is
the true maximum per-player tally; when two or more players hold it the
outcome is a tie and the room is left untouched, and when exactly one holds
it that player is eliminated, the phase moves to `results`, `playersWin` is
true exactly when the eliminated id is the imposter id, and the summary is a
descending-sorted permutation of every player's tally. -/
theorem calculateVoteResults_resolution (r : Room)
    (hphase : r.phase = Phase.voting)
    (hsync : r.votes = r.confirmedVotes)
    (hnodup : (r.players.map Player.id).Nodup)
    (himp : ∃ ip, r.imposterId = some ip ∧ hasPlayer r ip) :
    voteCounts r = r.confirmedVotes.foldl (fun m kv => bumpCount m kv.2) (initCounts r) ∧
    (∀ p ∈ r.players, tallyOf r p.id ≤ maxTally r) ∧
    (r.players ≠ [] → ∃ p ∈ r.players, tallyOf r p.id = maxTally r) ∧
    (∀ pid, pid ∈ maxHolders r ↔
      (pid ∈ r.players.map Player.id ∧ tallyOf r pid = maxTally r)) ∧
    (1 < (maxHolders r).length → calculateVoteResults r = (CalcOutcome.tie, r)) ∧
    (∀ w, maxHolders r = [w] →
      ∃ res, calculateVoteResults r =
          (CalcOutcome.results res, { r with phase := Phase.results }) ∧
        res.votedOutPlayer.1 = w ∧
        (res.playersWin = true ↔ r.imposterId = some w) ∧
        (res.voteSummary.map (fun e => (e.playerId, e.votes))).Perm (voteCounts r) ∧
        (voteCounts r).map Prod.fst = r.players.map Player.id ∧
        List.Sorted (fun a b => b.votes ≤ a.votes) res.voteSummary) := by
  have hkeys : (voteCounts r).map Prod.fst = r.players.map Player.id :=
    map_fst_voteCounts r
  have hcnodup : KeysNodup (voteCounts r) := by
    unfold KeysNodup
    rw [hkeys]
    exact hnodup
  have hub : ∀ p ∈ r.players, tallyOf r p.id ≤ maxTally r := by
    intro p hp
    have hk : p.id ∈ (voteCounts r).map Prod.fst := by
      rw [hkeys]
      exact List.mem_map_of_mem Player.id hp
    have hs := lookupKV_isSome_of_mem_keys _ _ hk
    obtain ⟨c, hc⟩ := Option.isSome_iff_exists.mp hs
    have hmem := lookupKV_mem _ _ _ hc
    unfold tallyOf maxTally maxVotes
    rw [hc]
    simpa using foldl_max_ge_elem (voteCounts r) 0 (p.id, c) hmem
  have hmemiff : ∀ pid, pid ∈ maxHolders r ↔
      (pid ∈ r.players.map Player.id ∧ tallyOf r pid = maxTally r) := by
    intro pid
    unfold maxHolders
    rw [mem_playersWithMaxVotes]
    constructor
    · rintro ⟨c, hmem, hce⟩
      refine ⟨by rw [← hkeys]; exact List.mem_map_of_mem Prod.fst hmem, ?_⟩
      have hl := mem_lookupKV_of_keysNodup _ (pid, c) hcnodup hmem
      unfold tallyOf
      rw [hl]
      simpa using hce
    · rintro ⟨hk, ht⟩
      have hs := lookupKV_isSome_of_mem_keys (voteCounts r) pid (by rw [hkeys]; exact hk)
      obtain ⟨c, hc⟩ := Option.isSome_iff_exists.mp hs
      refine ⟨c, lookupKV_mem _ _ _ hc, ?_⟩
      unfold tallyOf at ht
      rw [hc] at ht
      simpa using ht
  refine ⟨by unfold voteCounts; rw [hsync], hub, ?_, hmemiff, ?_, ?_⟩
  · intro hne
    rcases foldl_max_mem (voteCounts r) 0 with h0 | ⟨q, hq, hqe⟩
    · obtain ⟨p0, hp0⟩ := List.exists_mem_of_ne_nil r.players hne
      refine ⟨p0, hp0, ?_⟩
      have hle := hub p0 hp0
      have hm0 : maxTally r = 0 := h0
      omega
    · have hk : q.1 ∈ r.players.map Player.id := by
        rw [← hkeys]
        exact List.mem_map_of_mem Prod.fst hq
      obtain ⟨p, hp, hpid⟩ := List.mem_map.mp hk
      refine ⟨p, hp, ?_⟩
      have hl := mem_lookupKV_of_keysNodup _ q hcnodup hq
      unfold tallyOf maxTally maxVotes
      rw [hpid, hl]
      simpa using hqe.symm
  · intro htie
    unfold calculateVoteResults
    rw [if_neg (by simp [hphase])]
    dsimp only
    rw [if_pos (show (playersWithMaxVotes (voteCounts r)
      (maxVotes (voteCounts r))).length > 1 from htie)]
  · intro w hw
    have hwmem : w ∈ maxHolders r := by
      rw [hw]
      exact List.mem_singleton_self w
    obtain ⟨hk, _⟩ := (hmemiff w).mp hwmem
    have hgp : (getPlayer r w).isSome := by
      unfold getPlayer
      rw [List.find?_isSome]
      obtain ⟨p, hp, hpid⟩ := List.mem_map.mp hk
      exact ⟨p, hp, by simp [hpid]⟩
    obtain ⟨vp, hvp⟩ := Option.isSome_iff_exists.mp hgp
    have hvpid : vp.id = w := by
      have := List.find?_some hvp
      simpa using this
    obtain ⟨ip, hip, hipmem⟩ := himp
    obtain ⟨imp, himps⟩ := Option.isSome_iff_exists.mp hipmem
    have hbind : r.imposterId.bind (getPlayer r) = some imp := by
      rw [hip]
      exact himps
    have hfin : finalizeResults r w (voteCounts r) =
        some ({ votedOutPlayer := (vp.id, vp.name),
                imposter := (imp.id, imp.name),
                playersWin := decide (r.imposterId = some w),
                voteSummary := sortDesc ((voteCounts r).filterMap (fun p =>
                  (getPlayer r p.1).map (fun q => ⟨p.1, q.name, p.2⟩))),
                secretWord := r.word },
              { r with phase := Phase.results }) := by
      unfold finalizeResults
      rw [hvp, hbind]
    have hall : ∀ p ∈ voteCounts r, (getPlayer r p.1).isSome := by
      intro p hp
      have hk' : p.1 ∈ r.players.map Player.id := by
        rw [← hkeys]
        exact List.mem_map_of_mem Prod.fst hp
      unfold getPlayer
      rw [List.find?_isSome]
      obtain ⟨q, hq, hqid⟩ := List.mem_map.mp hk'
      exact ⟨q, hq, by simp [hqid]⟩
    refine ⟨{ votedOutPlayer := (vp.id, vp.name),
              imposter := (imp.id, imp.name),
              playersWin := decide (r.imposterId = some w),
              voteSummary := sortDesc ((voteCounts r).filterMap (fun p =>
                (getPlayer r p.1).map (fun q => ⟨p.1, q.name, p.2⟩))),
              secretWord := r.word }, ?_, ?_, ?_, ?_, hkeys, ?_⟩
    · unfold calculateVoteResults
      rw [if_neg (by simp [hphase])]
      dsimp only
      rw [show playersWithMaxVotes (voteCounts r) (maxVotes (voteCounts r)) = [w] from hw]
      rw [if_neg (by simp)]
      rw [show ([w].get? 0) = some w from rfl]
      dsimp only
      rw [hfin]
    · simpa using hvpid
    · simp
    · have hperm := (sortDesc_perm ((voteCounts r).filterMap (fun p =>
        (getPlayer r p.1).map (fun q => (⟨p.1, q.name, p.2⟩ : SummaryEntry))))).map
        (fun e => (e.playerId, e.votes))
      dsimp only
      rw [filterMap_summary_pre r (voteCounts r) hall] at hperm
      exact hperm
    · exact sortDesc_sorted _

theorem calculateVoteResults_resolution_witness :
    tallyOf roomVoting "p1" ≤ maxTally roomVoting := by
  have h := calculateVoteResults_resolution roomVoting rfl rfl (by decide)
    ⟨"p2", rfl, by decide⟩
  have h1 := h.2.1 { id := "p1", name := "Alice", socketId := "s1" } (by decide)
  simpa using h1

/-- Claim C2 (counterexample): the `game:results` payload that
`handleVotingComplete` broadcasts to the whole room carries the imposter id:
on a four-player voting room it is delivered to more than one connection and
its imposter field equals the room imposterId. -/
theorem imposter_in_results_broadcast :
    ((gameResultsBroadcast roomVoting).map (fun pl => pl.2.imposter.1)) = some "p2" ∧
    roomVoting.imposterId = some "p2" ∧
    1 < roomVoting.players.length := by decide

/-- Claim C2 (amended): a successful `startGame` stores exactly one
imposter id, drawn from the current players; `serializeRoom` and the
`game:started` broadcast are independent of the stored `imposterId` and
`word`; each role payload is addressed to the socket of the very player
whose role it describes.  (The later `game:results` broadcast deliberately
reveals the imposter to the whole room.) -/
theorem imposter_privacy (r : Room) :
    (∀ (pid tp w : String) (k : Nat) (gd : GameData),
      (startGame r pid tp w k).result = .ok gd →
      (startGame r pid tp w k).room.imposterId = some gd.imposterId ∧
      gd.imposterId ∈ r.players.map Player.id) ∧
    (∀ (i w : Option String),
      serializeRoom { r with imposterId := i, word := w } = serializeRoom r) ∧
    (∀ (gd : GameData) (i w : Option String),
      gameStartedPayload { r with imposterId := i, word := w } gd =
        gameStartedPayload r gd) ∧
    (∀ (gd : GameData) (msg : String × RolePayload),
      msg ∈ roleMessages r.players gd →
      ∃ p ∈ r.players, msg.1 = p.socketId ∧
        (msg.2.isImposter = true ↔ p.id = gd.imposterId) ∧
        (msg.2.word = none ↔ p.id = gd.imposterId)) := by
  refine ⟨?_, fun i w => rfl, fun gd i w => rfl, ?_⟩
  · intro pid tp w k gd h
    unfold startGame at h ⊢
    split_ifs at h ⊢
    cases hsel : selectRandomImposter r.players k with
    | none => rw [hsel] at h; cases h
    | some imp =>
      rw [hsel] at h
      dsimp only at h
      have hgd : gd = { topic := tp, word := w, imposterId := imp } := by
        cases h
        rfl
      subst hgd
      constructor
      · rfl
      · unfold selectRandomImposter at hsel
        cases hget : r.players.get? (k % r.players.length) with
        | none => rw [hget] at hsel; cases hsel
        | some q =>
          rw [hget] at hsel
          have hq : q.id = imp := by
            simpa using hsel
          have hqm : q ∈ r.players := List.get?_mem hget
          rw [← hq]
          exact List.mem_map_of_mem Player.id hqm
  · intro gd msg hmsg
    unfold roleMessages at hmsg
    rcases List.mem_map.mp hmsg with ⟨p, hp, he⟩
    refine ⟨p, hp, ?_, ?_, ?_⟩
    · rw [← he]
    · rw [← he]
      simp
    · rw [← he]
      dsimp only
      by_cases hid : p.id = gd.imposterId
      · simp [hid]
      · simp [hid]

theorem imposter_privacy_witness :
    (startGame roomLobby "p1" "Fruits" "Apple" 1).room.imposterId = some "p2" ∧
    "p2" ∈ roomLobby.players.map Player.id := by
  have h := (imposter_privacy roomLobby).1 "p1" "Fruits" "Apple" 1
    { topic := "Fruits", word := "Apple", imposterId := "p2" } (by decide)
  exact ⟨h.1, h.2⟩
